import Mathlib

/-!
Verification development for the Latitude MCP deploy pipeline
(src/api.ts, src/server.ts, src/tools.ts).

The remote prompt service is an external collaborator (spec section 6);
it is modelled by an oracle environment `Env` plus explicit remote state
`RemoteState` threaded through every embedded operation, together with a
trace of the remote calls performed.  The sha256 digest and the external
PromptL checker (`scan` from promptl-ai) are likewise abstracted as
oracle parameters; every piece of control flow of the repository itself
is translated directly from the TypeScript source.
-/

set_option maxRecDepth 4000

/-- Source location of a diagnostic (line, column), from the `location`
field of `ValidationIssue` in src/server.ts / src/api.ts. -/
structure Location where
  line : Nat
  column : Nat
deriving DecidableEq, Repr

/-- A structured diagnostic produced by `validatePromptLContent`
(src/api.ts lines 410-421, src/server.ts lines 615-626). -/
structure ValidationIssue where
  type : String
  code : String
  message : String
  rootCause : String
  suggestion : String
  location : Option Location := none
  codeFrame : Option String := none
deriving DecidableEq, Repr

/-- A `CompileError` of the external promptl-ai checker: code, message,
optional start location and optional rendered code frame. -/
structure CompileErrorT where
  code : String
  message : String
  start : Option Location := none
  frame : Option String := none
deriving DecidableEq, Repr

/-- Outcome of a call to the external `scan` checker as observed by
`validatePromptLContent`: a normal return carrying `result.errors`, a
thrown `CompileError`, or some other thrown error (its message). -/
inductive ScanResult where
  | ok (errors : List CompileErrorT)
  | thrownCompile (e : CompileErrorT)
  | thrownOther (message : String)
deriving DecidableEq, Repr

/-- A failing document reported by the failure localizer
(src/server.ts lines 602-613). -/
structure FailedDocument where
  path : String
  error : String
  code : String
  rootCause : String
  suggestion : String
  location : Option Location := none
  codeFrame : Option String := none
deriving DecidableEq, Repr

/-- `Version` from src/types.ts lines 19-27. -/
structure Version where
  id : Nat
  uuid : String
  projectId : Nat
  message : String
  createdAt : String
  updatedAt : String
  status : String
deriving DecidableEq, Repr

/-- `Document` as consumed by the diff engine: literal path, content and
the optional stored content hash (src/types/latitude.types.ts lines
85-94). -/
structure Document where
  versionUuid : String := ""
  uuid : String := ""
  path : String
  content : String
  contentHash : Option String := none
deriving DecidableEq, Repr

/-- The status of a document change (src/types.ts line 41). -/
inductive ChangeStatus where
  | added
  | modified
  | deleted
  | unchanged
deriving DecidableEq, Repr

/-- `DocumentChange` from src/types.ts lines 38-42. -/
structure DocumentChange where
  path : String
  content : String
  status : ChangeStatus
deriving DecidableEq, Repr

/-- `DeployResult` from src/types.ts lines 44-50. -/
structure DeployResult where
  version : Version
  documentsProcessed : Nat
  added : List String
  modified : List String
  deleted : List String
deriving DecidableEq, Repr

/-- An incoming (path, content) pair handed to the diff engine. -/
structure IncomingDoc where
  path : String
  content : String
deriving DecidableEq, Repr

/-- The `details` payload attached by deployToLive to the enriched
DOCUMENT_VALIDATION_FAILED error (src/server.ts lines 1022-1026). -/
structure ErrorDetails where
  failedDocuments : List FailedDocument
  totalFailed : Nat
  failedPaths : List String
deriving DecidableEq, Repr

/-- The normalized error shape of `LatitudeApiError`
(src/server.ts lines 269-283): name, machine code, message, HTTP-like
status and optional structured details. -/
structure ApiError where
  name : String
  errorCode : String
  message : String
  statusCode : Nat
  details : Option ErrorDetails := none
deriving DecidableEq, Repr

-- ============================================================================
-- Validator (src/api.ts lines 423-526, identical copy in src/server.ts)
-- ============================================================================

/-- The fixed `ERROR_SUGGESTIONS` lookup table mapping diagnostic codes
to (rootCause, suggestion) pairs (src/api.ts lines 423-464). -/
def ERROR_SUGGESTIONS : List (String × String × String) :=
  [ ("message-tag-inside-message",
     ("Message/role tags (<system>, <user>, <assistant>, <tool>) cannot be nested inside each other.",
      "Move the nested tag outside its parent. If showing an example, use a code block (```yaml) instead of actual role tags.")),
    ("content-tag-inside-content",
     ("Content tags (<text>, <image>, <file>, <tool-call>) must be directly inside message tags.",
      "Restructure so content tags are direct children of message tags, not nested in other content.")),
    ("step-tag-inside-step",
     ("Step/response tags cannot be nested inside each other.",
      "Move the <response> tag outside its parent <response> tag.")),
    ("config-not-found",
     ("PromptL files require a YAML configuration section at the top.",
      "Add config at the beginning:\n---\nprovider: openai\nmodel: gpt-4\n---")),
    ("config-already-declared",
     ("Only one configuration section is allowed per file.",
      "Remove the duplicate --- config --- section.")),
    ("invalid-config",
     ("The YAML configuration has syntax or validation errors.",
      "Check YAML syntax. Required fields: model. Optional: provider, temperature, schema.")),
    ("unclosed-block",
     ("A tag or block was opened but never closed.",
      "Add the missing closing tag. Check for typos in tag names.")),
    ("unexpected-eof",
     ("The file ended unexpectedly, likely due to unclosed tags or blocks.",
      "Ensure all opened tags (\x7b#if\x7d, \x7b#each\x7d, <system>, etc.) are properly closed.")),
    ("variable-not-defined",
     ("A variable is used but not provided in parameters.",
      "Either pass this variable when calling the prompt, or define it with \x7b#let\x7d.")),
    ("invalid-tool-call-placement",
     ("Tool calls (<tool-call>) can only appear inside <assistant> messages.",
      "Move the <tool-call> tag inside an <assistant> block.")) ]

/-- Build a ValidationIssue from a compile error, applying the
`ERROR_SUGGESTIONS` lookup with the given fallback suggestion text
(branches at src/api.ts lines 477-493 and 496-513 differ only in the
fallback suggestion). -/
def issueOfCompileError (e : CompileErrorT) (fallbackSuggestion : String) : ValidationIssue :=
  let info := (ERROR_SUGGESTIONS.lookup e.code).getD (e.message, fallbackSuggestion)
  { type := "error"
    code := e.code
    message := e.message
    rootCause := info.1
    suggestion := info.2
    location := e.start
    codeFrame := e.frame }

/-- `validatePromptLContent(content, path)` (src/api.ts lines 466-526):
runs the external checker and maps each diagnostic through
ERROR_SUGGESTIONS; a thrown CompileError becomes a single issue, any
other thrown error becomes the generic `unknown-error` issue.  The
external checker is the oracle argument `scan`. -/
def validatePromptLContent (scan : String → String → ScanResult)
    (content path : String) : List ValidationIssue :=
  match scan content path with
  | ScanResult.ok errors =>
      errors.map (fun e =>
        issueOfCompileError e "Review the PromptL documentation for correct syntax.")
  | ScanResult.thrownCompile e =>
      [issueOfCompileError e "Fix the syntax error at the indicated location."]
  | ScanResult.thrownOther msg =>
      [{ type := "error"
         code := "unknown-error"
         message := msg
         rootCause := "An unexpected error occurred during validation."
         suggestion := "Check the prompt content for syntax errors." }]

-- ============================================================================
-- Diff Engine (src/api.ts lines 315-384)
-- ============================================================================

/-- Collapse every run of repeated slashes to a single slash
(the `.replace(/\/+/g, '/')` step of normalizePath). -/
def collapseSlashes : List Char → List Char
  | [] => []
  | [c] => [c]
  | c1 :: c2 :: rest =>
      if c1 = '/' && c2 = '/' then collapseSlashes (c2 :: rest)
      else c1 :: collapseSlashes (c2 :: rest)

/-- JavaScript `String.prototype.trim`: drop whitespace from both
ends (modelled structurally over the character list so that it
evaluates inside the kernel). -/
def jsTrim (path : String) : List Char :=
  ((path.toList.dropWhile Char.isWhitespace).reverse.dropWhile Char.isWhitespace).reverse

/-- `normalizePath` (src/api.ts lines 330-336): trim, strip leading and
trailing slashes, collapse repeated slashes. -/
def normalizePath (path : String) : String :=
  let l := jsTrim path
  let l := l.dropWhile (fun c => c = '/')
  let l := (l.reverse.dropWhile (fun c => c = '/')).reverse
  String.mk (collapseSlashes l)

/-- `Map.set` semantics of a JavaScript Map represented as an
association list: an existing key keeps its original position but takes
the new value; a new key is appended. -/
def jsMapInsert (m : List (String × α)) (k : String) (v : α) : List (String × α) :=
  if m.any (fun e => e.1 = k) then
    m.map (fun e => if e.1 = k then (k, v) else e)
  else m ++ [(k, v)]

/-- `new Map(entries)` semantics: entries inserted in order with
`jsMapInsert`. -/
def jsMapOfList (l : List (String × α)) : List (String × α) :=
  l.foldl (fun m e => jsMapInsert m e.1 e.2) []

/-- `computeDiff` (src/api.ts lines 338-384).  The sha256 content hash
(`computeContentHash`, src/api.ts lines 315-317) is abstracted as the
oracle `hash`.  Incoming documents missing from the existing map are
`added`; matches with a differing stored hash are `modified` (reusing
the original stored path); existing entries absent from the incoming
paths are `deleted` (original stored path, empty content). -/
def computeDiff (hash : String → String)
    (incoming : List IncomingDoc) (existing : List Document) : List DocumentChange :=
  let existingMap : List (String × (String × Option String)) :=
    jsMapOfList (existing.map (fun d => (normalizePath d.path, (d.path, d.contentHash))))
  let incomingPaths : List String := incoming.map (fun p => normalizePath p.path)
  let fromIncoming : List DocumentChange :=
    incoming.filterMap (fun prompt =>
      match existingMap.lookup (normalizePath prompt.path) with
      | none =>
          some { path := prompt.path, content := prompt.content, status := ChangeStatus.added }
      | some existingDoc =>
          let localHash := hash prompt.content
          if existingDoc.2 ≠ some localHash then
            some { path := existingDoc.1, content := prompt.content, status := ChangeStatus.modified }
          else none)
  let fromExisting : List DocumentChange :=
    existingMap.filterMap (fun e =>
      if incomingPaths.contains e.1 then none
      else some { path := e.2.1, content := "", status := ChangeStatus.deleted })
  fromIncoming ++ fromExisting

-- ============================================================================
-- Remote service model (external collaborator, spec section 6)
-- ============================================================================

/-- One remote API call performed by the Version Client
(src/server.ts: createVersion line 429, pushChanges line 510,
publishVersion line 437, listDocuments line 449). -/
inductive RemoteOp where
  | create (name : String)
  | push (uuid : String) (changes : List DocumentChange)
  | publish (uuid : String) (title : Option String)
  | listDocs (versionRef : String)
deriving DecidableEq, Repr

/-- The uuid the modelled remote assigns to the k-th created version. -/
def freshUuid (k : Nat) : String :=
  "uuid-" ++ toString k

/-- State of an execution against the remote: how many versions were
created (drives fresh uuids), which batch was pushed to which draft,
the trace of remote calls, and the client-side prompt-name cache of
src/tools.ts (module-level `cachedPromptNames`). -/
structure RemoteState where
  ctr : Nat := 0
  drafts : List (String × List DocumentChange) := []
  trace : List RemoteOp := []
  cachedPromptNames : List String := []
deriving DecidableEq, Repr

/-- Oracle environment: the remote service's deterministic reaction to
each call (validation of pushed content, injected network failures), the
external PromptL checker, the clock, and the excluded-layer helpers
(file reading, error markdown rendering). -/
structure Env where
  scan : String → String → ScanResult
  hash : String → String
  now : Nat
  nowIso : String
  createErr : String → Option ApiError
  pushErr : List DocumentChange → Option ApiError
  processedOpt : List DocumentChange → Option Nat
  publishErr : List DocumentChange → Option ApiError
  publishedVersion : String → Version
  listDocsRes : String → Except ApiError (List Document)
  readPromptFile : String → String × String
  errorMarkdown : ApiError → String

/-- Result type of an embedded asynchronous operation: an
`Except ApiError` outcome together with the updated remote state (the
state, in particular the trace, survives a thrown error). -/
def RemoteM (α : Type) : Type :=
  RemoteState → Except ApiError α × RemoteState

/-- `createVersion(name)` (src/server.ts lines 429-435): POST a new
draft; on success the remote returns a fresh Version. -/
def createVersionR (env : Env) (name : String) : RemoteM Version := fun s =>
  let s := { s with trace := s.trace ++ [RemoteOp.create name] }
  match env.createErr name with
  | some e => (Except.error e, s)
  | none =>
      (Except.ok
        { id := s.ctr + 1
          uuid := freshUuid s.ctr
          projectId := 0
          message := name
          createdAt := env.nowIso
          updatedAt := env.nowIso
          status := "draft" },
       { s with ctr := s.ctr + 1 })

/-- Response of the push endpoint (src/server.ts lines 501-504 declare
documentsProcessed required; src/api.ts line 534 declares it optional,
hence the Option). -/
structure PushResponse where
  versionUuid : String
  documentsProcessed : Option Nat
deriving DecidableEq, Repr

/-- `pushChanges(versionUuid, changes)` (src/server.ts lines 510-532):
submits the whole batch in one call; on success the remote records the
batch as the content of that draft. -/
def pushChangesR (env : Env) (versionUuid : String) (changes : List DocumentChange) :
    RemoteM PushResponse := fun s =>
  let s := { s with trace := s.trace ++ [RemoteOp.push versionUuid changes] }
  match env.pushErr changes with
  | some e => (Except.error e, s)
  | none =>
      (Except.ok { versionUuid := versionUuid, documentsProcessed := env.processedOpt changes },
       { s with drafts := (versionUuid, changes) :: s.drafts })

/-- `publishVersion(versionUuid, title?)` (src/server.ts lines 437-447):
promotes the draft; the remote validates the batch that was pushed to
that draft and either rejects it or returns the published Version. -/
def publishVersionR (env : Env) (versionUuid : String) (title : Option String) :
    RemoteM Version := fun s =>
  let s := { s with trace := s.trace ++ [RemoteOp.publish versionUuid title] }
  let pushed := (s.drafts.lookup versionUuid).getD []
  match env.publishErr pushed with
  | some e => (Except.error e, s)
  | none => (Except.ok (env.publishedVersion versionUuid), s)

/-- `listDocuments(versionRef)` (src/server.ts lines 449-456); the
404-on-live normalization of src/api.ts lines 296-313 is part of the
oracle result. -/
def listDocumentsR (env : Env) (versionRef : String) : RemoteM (List Document) := fun s =>
  let s := { s with trace := s.trace ++ [RemoteOp.listDocs versionRef] }
  match env.listDocsRes versionRef with
  | Except.error e => (Except.error e, s)
  | Except.ok docs => (Except.ok docs, s)

-- ============================================================================
-- Failure Localizer (src/server.ts lines 750-906)
-- ============================================================================

/-- JavaScript `String.prototype.includes`. -/
def containsSubstr (s pat : String) : Bool :=
  (List.range (s.length + 1)).any (fun i => String.isPrefixOf pat (String.drop s i))

/-- Name of the throwaway draft used by a single-document probe
(src/server.ts line 822). -/
def valDraftName (env : Env) (change : DocumentChange) : String :=
  "val-" ++ toString env.now ++ "-" ++ (String.take change.path 20)

/-- Name of the throwaway draft used by a whole-batch probe
(src/server.ts line 899). -/
def batchValDraftName (env : Env) : String :=
  "batch-val-" ++ toString env.now

/-- The local validation pass of identifyFailingDocuments
(src/server.ts lines 759-777): for every non-delete change with
non-empty content, run the validator; a change whose issues contain at
least one error contributes its first error as a FailedDocument. -/
def localFailures (env : Env) (nonDeleteChanges : List DocumentChange) : List FailedDocument :=
  nonDeleteChanges.filterMap (fun change =>
    if change.content = "" then none
    else
      let localIssues := validatePromptLContent env.scan change.content change.path
      let errors := localIssues.filter (fun i => i.type = "error")
      match errors with
      | [] => none
      | mainError :: _ =>
          some { path := change.path
                 error := mainError.message
                 code := mainError.code
                 rootCause := mainError.rootCause
                 suggestion := mainError.suggestion
                 location := mainError.location
                 codeFrame := mainError.codeFrame })

/-- The catch-branch of testSingleDocument (src/server.ts lines
826-857): build a FailedDocument from the caught error, refining the
root cause when the message mentions the server-side batch validation
phrase, and appending any local validation warnings to the
suggestion. -/
def apiFailureDoc (env : Env) (change : DocumentChange) (error : ApiError) : FailedDocument :=
  let errorMsg := error.message
  let knownPattern := containsSubstr errorMsg "errors in the updated documents"
  let rootCause :=
    if knownPattern then
      "The document has PromptL syntax or configuration errors that passed local validation but failed server-side validation."
    else "The Latitude API rejected this document during publish validation."
  let suggestion :=
    if knownPattern then
      "Check for: 1) Invalid model/provider combination, 2) Malformed schema definition, 3) Invalid template syntax (\x7b\x7b \x7d\x7d)."
    else "Review the document content for syntax errors or invalid configuration."
  let suggestion :=
    if change.content ≠ "" then
      let localIssues := validatePromptLContent env.scan change.content change.path
      if localIssues.length > 0 then
        let warnings := localIssues.filter (fun i => i.type = "warning")
        if warnings.length > 0 then
          suggestion ++ "\n\nAdditional observations:\n" ++
            String.intercalate "\n"
              (warnings.map (fun w => "- " ++ w.message ++ ": " ++ w.suggestion))
        else suggestion
      else suggestion
    else suggestion
  { path := change.path
    error := errorMsg
    code := "api-validation-error"
    rootCause := rootCause
    suggestion := suggestion }

/-- `testSingleDocument(change)` (src/server.ts lines 818-859): create a
throwaway draft, push just this change, attempt publish; success means
the document is clean, any thrown error at any step is caught and
reported as a FailedDocument. -/
def testSingleDocument (env : Env) (change : DocumentChange) :
    RemoteM (Option FailedDocument) := fun s =>
  match createVersionR env (valDraftName env change) s with
  | (Except.error e, s1) => (Except.ok (some (apiFailureDoc env change e)), s1)
  | (Except.ok testDraft, s1) =>
    match pushChangesR env testDraft.uuid [change] s1 with
    | (Except.error e, s2) => (Except.ok (some (apiFailureDoc env change e)), s2)
    | (Except.ok _, s2) =>
      match publishVersionR env testDraft.uuid none s2 with
      | (Except.error e, s3) => (Except.ok (some (apiFailureDoc env change e)), s3)
      | (Except.ok _, s3) => (Except.ok none, s3)

/-- `testDocumentsIndividually(changes)` (src/server.ts lines 800-813):
probe each change in order, collecting the failures. -/
def testDocumentsIndividually (env : Env) :
    List DocumentChange → RemoteM (List FailedDocument)
  | [] => fun s => (Except.ok [], s)
  | change :: rest => fun s =>
    match testSingleDocument env change s with
    | (Except.error e, s1) => (Except.error e, s1)
    | (Except.ok result, s1) =>
      match testDocumentsIndividually env rest s1 with
      | (Except.error e, s2) => (Except.error e, s2)
      | (Except.ok failedRest, s2) =>
          (Except.ok ((match result with
                       | some f => [f]
                       | none => []) ++ failedRest), s2)

/-- `testBatch(changes)` (src/server.ts lines 897-906): create a
throwaway draft, push the whole batch, attempt publish; returns whether
the probe succeeded (every thrown error is swallowed as false). -/
def testBatch (env : Env) (changes : List DocumentChange) : RemoteM Bool := fun s =>
  match createVersionR env (batchValDraftName env) s with
  | (Except.error _, s1) => (Except.ok false, s1)
  | (Except.ok testDraft, s1) =>
    match pushChangesR env testDraft.uuid changes s1 with
    | (Except.error _, s2) => (Except.ok false, s2)
    | (Except.ok _, s2) =>
      match publishVersionR env testDraft.uuid none s2 with
      | (Except.error _, s3) => (Except.ok false, s3)
      | (Except.ok _, s3) => (Except.ok true, s3)

/-- `binarySearchFailures(changes)` (src/server.ts lines 865-892): a
batch of one is probed individually; otherwise the whole batch is
probed, and on failure the batch is split at `Math.floor(length / 2)`
and both halves are searched, concatenating the results.  The source
recursion always terminates because every recursive call halves a batch
of length at least two; the `fuel` argument makes this explicit, and
callers pass `changes.length`, which the termination argument shows is
always sufficient. -/
def binarySearchFailures (env : Env) :
    Nat → List DocumentChange → RemoteM (List FailedDocument)
  | 0, _ => fun s => (Except.ok [], s)
  | _ + 1, [change] => fun s =>
    match testSingleDocument env change s with
    | (Except.error e, s1) => (Except.error e, s1)
    | (Except.ok result, s1) =>
        (Except.ok (match result with
                    | some f => [f]
                    | none => []), s1)
  | fuel + 1, changes => fun s =>
    match testBatch env changes s with
    | (Except.error e, s1) => (Except.error e, s1)
    | (Except.ok true, s1) => (Except.ok [], s1)
    | (Except.ok false, s1) =>
      let mid := changes.length / 2
      let left := changes.take mid
      let right := changes.drop mid
      match binarySearchFailures env fuel left s1 with
      | (Except.error e, s2) => (Except.error e, s2)
      | (Except.ok leftFailures, s2) =>
        match binarySearchFailures env fuel right s2 with
        | (Except.error e, s3) => (Except.error e, s3)
        | (Except.ok rightFailures, s3) => (Except.ok (leftFailures ++ rightFailures), s3)

/-- `identifyFailingDocuments(changes)` (src/server.ts lines 750-795):
drop deletions; an empty remainder fails nothing; the local validation
pass returns immediately when it finds errors; otherwise batches of at
most five are probed one by one and larger batches by binary search. -/
def identifyFailingDocuments (env : Env) (changes : List DocumentChange) :
    RemoteM (List FailedDocument) := fun s =>
  let nonDeleteChanges := changes.filter (fun c => c.status ≠ ChangeStatus.deleted)
  if nonDeleteChanges.length = 0 then (Except.ok [], s)
  else
    let failed := localFailures env nonDeleteChanges
    if failed.length > 0 then (Except.ok failed, s)
    else if nonDeleteChanges.length ≤ 5 then
      testDocumentsIndividually env nonDeleteChanges s
    else
      binarySearchFailures env nonDeleteChanges.length nonDeleteChanges s

-- ============================================================================
-- Deploy Orchestrator (src/server.ts lines 908-1035)
-- ============================================================================

/-- `createNoOpVersion()` (src/server.ts lines 912-923): the synthetic
Version returned by a no-op deploy. -/
def createNoOpVersion (env : Env) : Version :=
  { id := 0
    uuid := "live"
    projectId := 0
    message := "No changes to deploy"
    createdAt := env.nowIso
    updatedAt := env.nowIso
    status := "live" }

/-- The markdown lines appended per failing document when deployToLive
builds the enriched error message (src/server.ts lines 1001-1013). -/
def failedDocLines (doc : FailedDocument) : List String :=
  ["\n## ❌ " ++ doc.path,
   "**Error Code:** `" ++ doc.code ++ "`",
   "**Error:** " ++ doc.error,
   "**Root Cause:** " ++ doc.rootCause] ++
  (match doc.location with
   | some loc =>
       ["**Location:** Line " ++ toString loc.line ++ ", Column " ++ toString loc.column]
   | none => []) ++
  (match doc.codeFrame with
   | some frame => ["**Code Context:**\n```\n" ++ frame ++ "\n```"]
   | none => []) ++
  ["**Fix:** " ++ doc.suggestion]

/-- The message of the enriched error (src/server.ts line 1015):
`<n> document(s) failed validation:` followed by the per-document lines
joined with newlines. -/
def documentValidationMessage (failedDocs : List FailedDocument) : String :=
  toString failedDocs.length ++ " document(s) failed validation:" ++
    String.intercalate "\n" (failedDocs.flatMap failedDocLines)

/-- The enriched LatitudeApiError thrown by deployToLive after
successful localization (src/server.ts lines 1017-1029): code
DOCUMENT_VALIDATION_FAILED, HTTP-like status 422, structured details. -/
def documentValidationError (failedDocs : List FailedDocument) : ApiError :=
  { name := "DocumentValidationError"
    errorCode := "DOCUMENT_VALIDATION_FAILED"
    message := documentValidationMessage failedDocs
    statusCode := 422
    details := some
      { failedDocuments := failedDocs
        totalFailed := failedDocs.length
        failedPaths := failedDocs.map (fun d => d.path) } }

/-- The no-op DeployResult (src/server.ts lines 939-945 and 953-959). -/
def noOpDeployResult (env : Env) : DeployResult :=
  { version := createNoOpVersion env
    documentsProcessed := 0
    added := []
    modified := []
    deleted := [] }

namespace Srv

/-- `deployToLive(changes, _versionName?)` of src/server.ts lines
933-1035: empty or all-unchanged change sets return the synthetic no-op
result without any remote call; otherwise one draft named
`MCP deploy <timestamp>` is created (the `_versionName` parameter is
unused by this variant), the whole filtered set is pushed in one batch,
and the draft is published.  A publish failure triggers the failure
localizer over the same filtered set; a non-empty localization result
becomes the enriched DOCUMENT_VALIDATION_FAILED error, an empty one
re-throws the original publish error.  The server.ts push response
declares documentsProcessed required; `.getD 0` renders the TypeScript
field access on the optional wire field. -/
def deployToLive (env : Env) (changes : List DocumentChange)
    (_versionName : Option String) : RemoteM DeployResult := fun s =>
  if changes.length = 0 then (Except.ok (noOpDeployResult env), s)
  else
    let actualChanges := changes.filter (fun c => c.status ≠ ChangeStatus.unchanged)
    if actualChanges.length = 0 then (Except.ok (noOpDeployResult env), s)
    else
      let added := (actualChanges.filter (fun c => c.status = ChangeStatus.added)).map (fun c => c.path)
      let modified := (actualChanges.filter (fun c => c.status = ChangeStatus.modified)).map (fun c => c.path)
      let deleted := (actualChanges.filter (fun c => c.status = ChangeStatus.deleted)).map (fun c => c.path)
      let draftName := "MCP deploy " ++ env.nowIso
      match createVersionR env draftName s with
      | (Except.error e, s1) => (Except.error e, s1)
      | (Except.ok draft, s1) =>
        match pushChangesR env draft.uuid actualChanges s1 with
        | (Except.error e, s2) => (Except.error e, s2)
        | (Except.ok pushResult, s2) =>
          match publishVersionR env draft.uuid (some draftName) s2 with
          | (Except.ok published, s3) =>
              (Except.ok
                { version := published
                  documentsProcessed := pushResult.documentsProcessed.getD 0
                  added := added
                  modified := modified
                  deleted := deleted }, s3)
          | (Except.error publishError, s3) =>
            match identifyFailingDocuments env actualChanges s3 with
            | (Except.error e, s4) => (Except.error e, s4)
            | (Except.ok failedDocs, s4) =>
                if failedDocs.length > 0 then
                  (Except.error (documentValidationError failedDocs), s4)
                else (Except.error publishError, s4)

end Srv

-- ============================================================================
-- api.ts deploy pipeline (src/api.ts lines 528-700)
-- ============================================================================

/-- JavaScript `a || b` on an optional string: an absent value and the
empty string both fall back to the default. -/
def jsOrStr (o : Option String) (d : String) : String :=
  match o with
  | some v => if v = "" then d else v
  | none => d

namespace Api

/-- `createDraftVersion(name?)` (src/api.ts lines 545-558): the draft
is named `name || `mcp-draft-${timestamp}``, so an absent or empty
caller-supplied name falls back to the auto-generated label. -/
def createDraftVersion (env : Env) (name : Option String) : RemoteM Version :=
  let versionName := jsOrStr name ("mcp-draft-" ++ toString env.now)
  createVersionR env versionName

/-- `deployToLive(changes, _versionName?)` of src/api.ts lines 630-700:
same no-op handling, then draft creation via `createDraftVersion`
(honouring the caller-supplied name), one batch push (`pushToVersion`,
src/api.ts lines 563-585, modelled by the shared push operation), and
publish of the returned commit reference.  `jsOrNat` renders the
JavaScript `pushResult.documentsProcessed || actualChanges.length`
fallback (0 and a missing field both fall back). -/
def jsOrNat (o : Option Nat) (d : Nat) : Nat :=
  match o with
  | some n => if n = 0 then d else n
  | none => d

/-- Version value assembled by the api.ts success path
(src/api.ts lines 678-687); the message is
`_versionName || 'MCP push'`, so an absent or empty caller-supplied
name falls back to the default label. -/
def mergedVersion (env : Env) (draft : Version) (publishedUuid : String)
    (versionName : Option String) : Version :=
  { id := draft.id
    uuid := publishedUuid
    projectId := 0
    message := jsOrStr versionName "MCP push"
    createdAt := env.nowIso
    updatedAt := env.nowIso
    status := "merged" }

def deployToLive (env : Env) (changes : List DocumentChange)
    (versionName : Option String) : RemoteM DeployResult := fun s =>
  if changes.length = 0 then (Except.ok (noOpDeployResult env), s)
  else
    let actualChanges := changes.filter (fun c => c.status ≠ ChangeStatus.unchanged)
    if actualChanges.length = 0 then (Except.ok (noOpDeployResult env), s)
    else
      let added := (actualChanges.filter (fun c => c.status = ChangeStatus.added)).map (fun c => c.path)
      let modified := (actualChanges.filter (fun c => c.status = ChangeStatus.modified)).map (fun c => c.path)
      let deleted := (actualChanges.filter (fun c => c.status = ChangeStatus.deleted)).map (fun c => c.path)
      match createDraftVersion env versionName s with
      | (Except.error e, s1) => (Except.error e, s1)
      | (Except.ok draft, s1) =>
        match pushChangesR env draft.uuid actualChanges s1 with
        | (Except.error e, s2) => (Except.error e, s2)
        | (Except.ok pushResult, s2) =>
          match publishVersionR env pushResult.versionUuid none s2 with
          | (Except.error e, s3) => (Except.error e, s3)
          | (Except.ok published, s3) =>
              (Except.ok
                { version := mergedVersion env draft published.uuid versionName
                  documentsProcessed := jsOrNat pushResult.documentsProcessed actualChanges.length
                  added := added
                  modified := modified
                  deleted := deleted }, s3)

end Api

-- ============================================================================
-- Tool layer (src/tools.ts)
-- ============================================================================

/-- A (name, content) prompt supplied to the push tool
(src/tools.ts line 242). -/
structure NamedPrompt where
  name : String
  content : String
deriving DecidableEq, Repr

/-- `PromptValidationResult` (src/tools.ts lines 229-235). -/
structure PromptValidationResult where
  valid : Bool
  errors : List (String × List ValidationIssue)
deriving DecidableEq, Repr

/-- `ToolResult` (src/tools.ts lines 43-46): the text items of the
response and the error flag. -/
structure ToolResult where
  content : List String
  isError : Bool := false
deriving DecidableEq, Repr

/-- `validateAllPrompts(prompts)` (src/tools.ts lines 241-259): run the
validator on every prompt; prompts with at least one error-type issue
contribute their error issues; the batch is valid exactly when no
prompt contributed. -/
def validateAllPrompts (scan : String → String → ScanResult)
    (prompts : List NamedPrompt) : PromptValidationResult :=
  let errors := prompts.filterMap (fun prompt =>
    let issues := validatePromptLContent scan prompt.content prompt.name
    let errorIssues := issues.filter (fun i => i.type = "error")
    if errorIssues.length > 0 then some (prompt.name, errorIssues) else none)
  { valid := errors.length = 0, errors := errors }

/-- Per-issue lines of the validation failure report
(src/tools.ts lines 272-290). -/
def validationIssueLines (name : String) (issue : ValidationIssue) : List String :=
  ["### " ++ name,
   "**Error Code:** `" ++ issue.code ++ "`",
   "**Error:** " ++ issue.message,
   "**Root Cause:** " ++ issue.rootCause] ++
  (match issue.location with
   | some loc =>
       ["**Location:** Line " ++ toString loc.line ++ ", Column " ++ toString loc.column]
   | none => []) ++
  (match issue.codeFrame with
   | some frame => ["**Code Context:**\n```\n" ++ frame ++ "\n```"]
   | none => []) ++
  ["**Fix:** " ++ issue.suggestion, ""]

/-- `formatValidationErrors(errors)` (src/tools.ts lines 264-299). -/
def formatValidationErrors
    (errors : List (String × List ValidationIssue)) : ToolResult :=
  let lines :=
    ["## ❌ Validation Failed - No Changes Made\n",
     "**" ++ toString errors.length ++ " prompt(s) have errors.** Fix all errors before pushing.\n"] ++
    (errors.flatMap (fun e => e.2.flatMap (validationIssueLines e.1))) ++
    ["---", "**Action Required:** Fix the errors above, then retry."]
  { content := [String.intercalate "\n" lines], isError := true }

/-- `formatSuccess(title, content)` (src/tools.ts lines 83-92). -/
def formatSuccess (title content : String) : ToolResult :=
  { content := ["## " ++ title ++ "\n\n" ++ content] }

/-- `refreshPromptCache()` (src/tools.ts lines 55-67): list the live
documents and cache their paths; on failure return the stale cache. -/
def refreshPromptCache (env : Env) : RemoteM (List String) := fun s =>
  match listDocumentsR env "live" s with
  | (Except.ok docs, s1) =>
      let names := docs.map (fun d => d.path)
      (Except.ok names, { s1 with cachedPromptNames := names })
  | (Except.error _, s1) => (Except.ok s1.cachedPromptNames, s1)

/-- `forceRefreshAndGetNames()` (src/tools.ts lines 78-81): clears the
cache timestamp and refreshes. -/
def forceRefreshAndGetNames (env : Env) : RemoteM (List String) :=
  refreshPromptCache env

/-- Arguments of the push_prompts tool (src/tools.ts lines 400-404). -/
structure PushPromptsArgs where
  prompts : Option (List NamedPrompt) := none
  filePaths : Option (List String) := none
  versionName : Option String := none

/-- Comma-separated backticked name list used by the push tool replies
(src/tools.ts lines 449 and 476). -/
def backtickNameList (names : List String) : String :=
  String.intercalate ", " (names.map (fun n => "`" ++ n ++ "`"))

/-- The summary markdown built on a successful push
(src/tools.ts lines 460-476). -/
def pushSummaryContent (added modified deleted : List DocumentChange)
    (result : DeployResult) (newNames : List String) : String :=
  "**Summary:**\n" ++
  "- Added: " ++ toString added.length ++ "\n" ++
  "- Modified: " ++ toString modified.length ++ "\n" ++
  "- Deleted: " ++ toString deleted.length ++ "\n" ++
  "- Documents processed: " ++ toString result.documentsProcessed ++ "\n\n" ++
  (if added.length > 0 then
    "### Added\n" ++ String.intercalate "\n" (added.map (fun c => "- `" ++ c.path ++ "`")) ++ "\n\n"
   else "") ++
  (if modified.length > 0 then
    "### Modified\n" ++ String.intercalate "\n" (modified.map (fun c => "- `" ++ c.path ++ "`")) ++ "\n\n"
   else "") ++
  (if deleted.length > 0 then
    "### Deleted\n" ++ String.intercalate "\n" (deleted.map (fun c => "- `" ++ c.path ++ "`")) ++ "\n\n"
   else "") ++
  "---\n**Current LIVE prompts (" ++ toString newNames.length ++ "):** " ++
  backtickNameList newNames

/-- The prompt list handlePushPrompts works on: direct input or
file-path input read through the excluded file layer
(src/tools.ts lines 406-416). -/
def resolvedPrompts (env : Env) (args : PushPromptsArgs) : List NamedPrompt :=
  match args.filePaths with
  | some fps =>
      if fps.length > 0 then
        fps.map (fun fp =>
          let nc := env.readPromptFile fp
          { name := nc.1, content := nc.2 })
      else (args.prompts).getD []
  | none => (args.prompts).getD []

/-- `handlePushPrompts(args)` (src/tools.ts lines 400-492): resolve the
prompt list from direct input or file paths, reject an empty list,
pre-validate every prompt and stop before any network call when the
batch is invalid, then diff against the live documents and either
report no changes or deploy the diff through the api.ts deployToLive
(forwarding `args.versionName || 'push'`).  API errors caught by the
handler are rendered through `LatitudeApiError.toMarkdown`, which is
excluded response formatting (spec section 1) and therefore supplied by
the `errorMarkdown` oracle. -/
def handlePushPrompts (env : Env) (args : PushPromptsArgs) : RemoteM ToolResult := fun s =>
  let prompts : List NamedPrompt := resolvedPrompts env args
  if prompts.length = 0 then
    (Except.ok { content := ["## Error\n\nNo prompts provided. Use either prompts array or filePaths."],
                 isError := true }, s)
  else
    let validation := validateAllPrompts env.scan prompts
    if validation.valid = false then
      (Except.ok (formatValidationErrors validation.errors), s)
    else
      match listDocumentsR env "live" s with
      | (Except.error e, s1) =>
          (Except.ok { content := [env.errorMarkdown e], isError := true }, s1)
      | (Except.ok existingDocs, s1) =>
        let incoming := prompts.map (fun p => { path := p.name, content := p.content : IncomingDoc })
        let changes := computeDiff env.hash incoming existingDocs
        let added := changes.filter (fun c => c.status = ChangeStatus.added)
        let modified := changes.filter (fun c => c.status = ChangeStatus.modified)
        let deleted := changes.filter (fun c => c.status = ChangeStatus.deleted)
        if changes.length = 0 then
          match forceRefreshAndGetNames env s1 with
          | (Except.error e, s2) =>
              (Except.ok { content := [env.errorMarkdown e], isError := true }, s2)
          | (Except.ok newNames, s2) =>
              (Except.ok (formatSuccess "No Changes Needed"
                ("All " ++ toString prompts.length ++ " prompt(s) are already up to date.\n\n" ++
                 "**Current LIVE prompts (" ++ toString newNames.length ++ "):** " ++
                 backtickNameList newNames)), s2)
        else
          match Api.deployToLive env changes (some (jsOrStr args.versionName "push")) s1 with
          | (Except.error e, s2) =>
              (Except.ok { content := [env.errorMarkdown e], isError := true }, s2)
          | (Except.ok result, s2) =>
            match forceRefreshAndGetNames env s2 with
            | (Except.error e, s3) =>
                (Except.ok { content := [env.errorMarkdown e], isError := true }, s3)
            | (Except.ok newNames, s3) =>
                (Except.ok (formatSuccess "Prompts Pushed to LIVE"
                  (pushSummaryContent added modified deleted result newNames)), s3)

-- ============================================================================
-- Shared concrete instances for witnesses and counterexamples
-- ============================================================================

/-- Fresh remote state at the start of an execution. -/
def initState : RemoteState := {}

/-- A benign oracle environment: the checker reports nothing, every
remote call succeeds, the digest is the identity. -/
def okEnv : Env :=
  { scan := fun _ _ => ScanResult.ok []
    hash := fun c => c
    now := 0
    nowIso := "2024-01-01T00:00:00.000Z"
    createErr := fun _ => none
    pushErr := fun _ => none
    processedOpt := fun l => some l.length
    publishErr := fun _ => none
    publishedVersion := fun u =>
      { id := 99, uuid := u, projectId := 0, message := "", createdAt := "",
        updatedAt := "", status := "merged" }
    listDocsRes := fun _ => Except.ok []
    readPromptFile := fun fp => (fp, "")
    errorMarkdown := fun e => e.message }

-- ============================================================================
-- C3: no-op deploy
-- ============================================================================

/-- C3: if the change set passed to deployToLive is empty or contains
only entries with status unchanged, deployToLive performs no remote
call (the state, hence the trace, is untouched and no draft is
created) and returns the synthetic live Version (id 0, uuid "live",
status "live") with documentsProcessed 0 and empty path lists. -/
theorem deployToLive_noop (env : Env) (changes : List DocumentChange)
    (name : Option String) (s : RemoteState)
    (h : ∀ c ∈ changes, c.status = ChangeStatus.unchanged) :
    Srv.deployToLive env changes name s =
      (Except.ok
        { version :=
            { id := 0, uuid := "live", projectId := 0,
              message := "No changes to deploy",
              createdAt := env.nowIso, updatedAt := env.nowIso, status := "live" }
          documentsProcessed := 0
          added := []
          modified := []
          deleted := [] }, s) := by
  have hfilter : changes.filter (fun c => !decide (c.status = ChangeStatus.unchanged)) = [] := by
    rw [List.filter_eq_nil_iff]
    intro c hc
    simp [h c hc]
  unfold Srv.deployToLive
  by_cases hlen : changes.length = 0
  · simp [hlen, noOpDeployResult, createNoOpVersion]
  · simp [hlen, hfilter, noOpDeployResult, createNoOpVersion]

/-- Witness for C3 at a concrete all-unchanged change set. -/
theorem deployToLive_noop_witness :
    (∀ c ∈ [({ path := "a", content := "x", status := ChangeStatus.unchanged : DocumentChange})],
        c.status = ChangeStatus.unchanged) ∧
    Srv.deployToLive okEnv
        [{ path := "a", content := "x", status := ChangeStatus.unchanged }] none initState =
      (Except.ok
        { version :=
            { id := 0, uuid := "live", projectId := 0,
              message := "No changes to deploy",
              createdAt := okEnv.nowIso, updatedAt := okEnv.nowIso, status := "live" }
          documentsProcessed := 0
          added := []
          modified := []
          deleted := [] }, initState) :=
  ⟨by decide, deployToLive_noop okEnv _ none initState (by decide)⟩

-- ============================================================================
-- Evaluation lemmas for the single-document and batch probes
-- ============================================================================

/-- A single-document probe whose draft creation fails reports the
document as failing without further remote calls. -/
theorem testSingle_createErr (env : Env) (change : DocumentChange) (s : RemoteState)
    (e : ApiError) (hc : env.createErr (valDraftName env change) = some e) :
    testSingleDocument env change s =
      (Except.ok (some (apiFailureDoc env change e)),
       { s with trace := s.trace ++ [RemoteOp.create (valDraftName env change)] }) := by
  simp [testSingleDocument, createVersionR, hc]

/-- A single-document probe whose push fails reports the document as
failing. -/
theorem testSingle_pushErr (env : Env) (change : DocumentChange) (s : RemoteState)
    (e : ApiError) (hc : env.createErr (valDraftName env change) = none)
    (hp : env.pushErr [change] = some e) :
    testSingleDocument env change s =
      (Except.ok (some (apiFailureDoc env change e)),
       { s with ctr := s.ctr + 1,
                trace := s.trace ++ [RemoteOp.create (valDraftName env change),
                                     RemoteOp.push (freshUuid s.ctr) [change]] }) := by
  simp [testSingleDocument, createVersionR, pushChangesR, hc, hp]

/-- A single-document probe whose publish is rejected reports the
document as failing. -/
theorem testSingle_publishErr (env : Env) (change : DocumentChange) (s : RemoteState)
    (e : ApiError) (hc : env.createErr (valDraftName env change) = none)
    (hp : env.pushErr [change] = none)
    (hq : env.publishErr [change] = some e) :
    testSingleDocument env change s =
      (Except.ok (some (apiFailureDoc env change e)),
       { s with ctr := s.ctr + 1,
                drafts := (freshUuid s.ctr, [change]) :: s.drafts,
                trace := s.trace ++ [RemoteOp.create (valDraftName env change),
                                     RemoteOp.push (freshUuid s.ctr) [change],
                                     RemoteOp.publish (freshUuid s.ctr) none] }) := by
  simp [testSingleDocument, createVersionR, pushChangesR, publishVersionR,
        List.lookup, hc, hp, hq]

/-- A fully successful single-document probe reports the document as
clean; note that its publish call has succeeded, so the throwaway
draft has been promoted to live by the remote. -/
theorem testSingle_ok (env : Env) (change : DocumentChange) (s : RemoteState)
    (hc : env.createErr (valDraftName env change) = none)
    (hp : env.pushErr [change] = none)
    (hq : env.publishErr [change] = none) :
    testSingleDocument env change s =
      (Except.ok none,
       { s with ctr := s.ctr + 1,
                drafts := (freshUuid s.ctr, [change]) :: s.drafts,
                trace := s.trace ++ [RemoteOp.create (valDraftName env change),
                                     RemoteOp.push (freshUuid s.ctr) [change],
                                     RemoteOp.publish (freshUuid s.ctr) none] }) := by
  simp [testSingleDocument, createVersionR, pushChangesR, publishVersionR,
        List.lookup, hc, hp, hq]

-- ============================================================================
-- C10: any probe error marks the document as failing
-- ============================================================================

/-- C10: whenever any step of a single-document probe — draft creation,
push, or publish — fails with any error whatsoever (a transient network
or timeout error included), testSingleDocument reports the probed
change as a failing document whose code is "api-validation-error",
whose path is the probed path and whose error text is the message of
the error that was thrown; the failure need not be attributable to the
document content. -/
theorem testSingleDocument_any_error_marks_failing
    (env : Env) (change : DocumentChange) (s : RemoteState)
    (h : env.createErr (valDraftName env change) ≠ none ∨
         env.pushErr [change] ≠ none ∨
         env.publishErr [change] ≠ none) :
    ∃ fd s1, testSingleDocument env change s = (Except.ok (some fd), s1) ∧
      fd.code = "api-validation-error" ∧ fd.path = change.path ∧
      (∃ e : ApiError, fd.error = e.message ∧
        (env.createErr (valDraftName env change) = some e ∨
         env.pushErr [change] = some e ∨
         env.publishErr [change] = some e)) := by
  cases hc : env.createErr (valDraftName env change) with
  | some e =>
      exact ⟨apiFailureDoc env change e, _, testSingle_createErr env change s e hc,
             rfl, rfl, e, rfl, Or.inl rfl⟩
  | none =>
      cases hp : env.pushErr [change] with
      | some e =>
          exact ⟨apiFailureDoc env change e, _, testSingle_pushErr env change s e hc hp,
                 rfl, rfl, e, rfl, Or.inr (Or.inl rfl)⟩
      | none =>
          cases hq : env.publishErr [change] with
          | some e =>
              exact ⟨apiFailureDoc env change e, _,
                     testSingle_publishErr env change s e hc hp hq,
                     rfl, rfl, e, rfl, Or.inr (Or.inr rfl)⟩
          | none =>
              rcases h with h | h | h
              · exact absurd hc h
              · exact absurd hp h
              · exact absurd hq h

/-- A network-error-shaped ApiError (status 0, NETWORK_ERROR), as
produced by the request wrapper of src/server.ts lines 254-261. -/
def networkError : ApiError :=
  { name := "NetworkError", errorCode := "NETWORK_ERROR",
    message := "fetch failed", statusCode := 0 }

/-- Environment in which every draft creation fails with a transient
network error. -/
def createFailsEnv : Env :=
  { okEnv with createErr := fun _ => some networkError }

/-- Witness for C10: a transient network error during draft creation
marks the probed document as failing. -/
theorem testSingleDocument_any_error_witness :
    (createFailsEnv.createErr
        (valDraftName createFailsEnv { path := "a", content := "x", status := ChangeStatus.added }) ≠ none ∨
     createFailsEnv.pushErr [{ path := "a", content := "x", status := ChangeStatus.added }] ≠ none ∨
     createFailsEnv.publishErr [{ path := "a", content := "x", status := ChangeStatus.added }] ≠ none) ∧
    ∃ fd s1, testSingleDocument createFailsEnv
        { path := "a", content := "x", status := ChangeStatus.added } initState =
        (Except.ok (some fd), s1) ∧
      fd.code = "api-validation-error" ∧ fd.path = "a" ∧
      (∃ e : ApiError, fd.error = e.message ∧
        (createFailsEnv.createErr
            (valDraftName createFailsEnv { path := "a", content := "x", status := ChangeStatus.added }) = some e ∨
         createFailsEnv.pushErr [{ path := "a", content := "x", status := ChangeStatus.added }] = some e ∨
         createFailsEnv.publishErr [{ path := "a", content := "x", status := ChangeStatus.added }] = some e)) :=
  ⟨Or.inl (by decide),
   testSingleDocument_any_error_marks_failing createFailsEnv
     { path := "a", content := "x", status := ChangeStatus.added } initState
     (Or.inl (by decide))⟩

/-- A batch probe whose draft creation fails counts as a failed batch. -/
theorem testBatch_createErr (env : Env) (changes : List DocumentChange) (s : RemoteState)
    (e : ApiError) (hc : env.createErr (batchValDraftName env) = some e) :
    testBatch env changes s =
      (Except.ok false,
       { s with trace := s.trace ++ [RemoteOp.create (batchValDraftName env)] }) := by
  simp [testBatch, createVersionR, hc]

/-- A batch probe whose push fails counts as a failed batch. -/
theorem testBatch_pushErr (env : Env) (changes : List DocumentChange) (s : RemoteState)
    (e : ApiError) (hc : env.createErr (batchValDraftName env) = none)
    (hp : env.pushErr changes = some e) :
    testBatch env changes s =
      (Except.ok false,
       { s with ctr := s.ctr + 1,
                trace := s.trace ++ [RemoteOp.create (batchValDraftName env),
                                     RemoteOp.push (freshUuid s.ctr) changes] }) := by
  simp [testBatch, createVersionR, pushChangesR, hc, hp]

/-- A batch probe whose publish is rejected counts as a failed batch. -/
theorem testBatch_publishErr (env : Env) (changes : List DocumentChange) (s : RemoteState)
    (e : ApiError) (hc : env.createErr (batchValDraftName env) = none)
    (hp : env.pushErr changes = none)
    (hq : env.publishErr changes = some e) :
    testBatch env changes s =
      (Except.ok false,
       { s with ctr := s.ctr + 1,
                drafts := (freshUuid s.ctr, changes) :: s.drafts,
                trace := s.trace ++ [RemoteOp.create (batchValDraftName env),
                                     RemoteOp.push (freshUuid s.ctr) changes,
                                     RemoteOp.publish (freshUuid s.ctr) none] }) := by
  simp [testBatch, createVersionR, pushChangesR, publishVersionR, List.lookup, hc, hp, hq]

/-- A fully successful batch probe counts as a clean batch (and its
publish has promoted the throwaway draft to live). -/
theorem testBatch_ok (env : Env) (changes : List DocumentChange) (s : RemoteState)
    (hc : env.createErr (batchValDraftName env) = none)
    (hp : env.pushErr changes = none)
    (hq : env.publishErr changes = none) :
    testBatch env changes s =
      (Except.ok true,
       { s with ctr := s.ctr + 1,
                drafts := (freshUuid s.ctr, changes) :: s.drafts,
                trace := s.trace ++ [RemoteOp.create (batchValDraftName env),
                                     RemoteOp.push (freshUuid s.ctr) changes,
                                     RemoteOp.publish (freshUuid s.ctr) none] }) := by
  simp [testBatch, createVersionR, pushChangesR, publishVersionR, List.lookup, hc, hp, hq]

-- ============================================================================
-- C4: local validation pass short-circuits the remote probes
-- ============================================================================

/-- C4 (amended): whenever the local pass — which runs the Validator
over every non-delete change with non-empty content — finds at least
one error-type issue, identifyFailingDocuments returns exactly the
locally failing documents immediately and performs no remote operation
at all: the remote state, and in particular the trace of remote calls,
is returned untouched. -/
theorem identifyFailingDocuments_local_short_circuit
    (env : Env) (changes : List DocumentChange) (s : RemoteState)
    (h : localFailures env (changes.filter (fun c => c.status ≠ ChangeStatus.deleted)) ≠ []) :
    identifyFailingDocuments env changes s =
      (Except.ok (localFailures env (changes.filter (fun c => c.status ≠ ChangeStatus.deleted))), s) := by
  simp only [ne_eq, decide_not] at h ⊢
  have hpos : 0 < (localFailures env
      (changes.filter (fun c => !decide (c.status = ChangeStatus.deleted)))).length :=
    List.length_pos.mpr h
  have hne : ¬ ((changes.filter (fun c => !decide (c.status = ChangeStatus.deleted))).length = 0) := by
    intro hzero
    rw [List.length_eq_zero] at hzero
    rw [hzero] at h
    exact h rfl
  simp only [identifyFailingDocuments, ne_eq, decide_not]
  rw [if_neg hne, if_pos hpos]

/-- A compile error the oracle checker reports for the content "bad". -/
def badContentError : CompileErrorT :=
  { code := "unclosed-block", message := "unclosed tag" }

/-- Environment whose checker rejects exactly the content "bad". -/
def scanBadEnv : Env :=
  { okEnv with
    scan := fun c _ => if c = "bad" then ScanResult.ok [badContentError] else ScanResult.ok [] }

/-- Witness for C4 at a concrete batch with one locally failing
document. -/
theorem identifyFailingDocuments_local_witness :
    localFailures scanBadEnv
      ([ { path := "p", content := "bad", status := ChangeStatus.added },
         { path := "q", content := "fine", status := ChangeStatus.added } ].filter
        (fun c => c.status ≠ ChangeStatus.deleted)) ≠ [] ∧
    identifyFailingDocuments scanBadEnv
      [ { path := "p", content := "bad", status := ChangeStatus.added },
        { path := "q", content := "fine", status := ChangeStatus.added } ] initState =
      (Except.ok (localFailures scanBadEnv
        ([ { path := "p", content := "bad", status := ChangeStatus.added },
           { path := "q", content := "fine", status := ChangeStatus.added } ].filter
          (fun c => c.status ≠ ChangeStatus.deleted))), initState) :=
  ⟨by decide,
   identifyFailingDocuments_local_short_circuit scanBadEnv _ initState (by decide)⟩

/-- Environment whose checker reports an error exactly for empty
content (every remote call succeeds). -/
def emptyScanErrEnv : Env :=
  { okEnv with
    scan := fun c _ =>
      if c = "" then ScanResult.ok [{ code := "unexpected-eof", message := "empty prompt" }]
      else ScanResult.ok [] }

/-- Counterexample to C4 as stated: the local pass skips non-delete
changes whose content is the empty string (`if (!change.content)
continue`, src/server.ts line 760).  Here the single non-delete change
has an error-type local validation issue (the Validator rejects its
empty content), yet identifyFailingDocuments does not return it and
instead performs three remote operations - a probe draft creation,
a push and a publish - and reports no failing document. -/
theorem identifyFailingDocuments_skips_empty_content :
    (validatePromptLContent emptyScanErrEnv.scan "" "a").filter
        (fun i => i.type = "error") ≠ [] ∧
    identifyFailingDocuments emptyScanErrEnv
        [{ path := "a", content := "", status := ChangeStatus.added }] initState =
      (Except.ok [],
       { ctr := 1,
         drafts := [(freshUuid 0, [{ path := "a", content := "", status := ChangeStatus.added }])],
         trace := [RemoteOp.create "val-0-a",
                   RemoteOp.push (freshUuid 0)
                     [{ path := "a", content := "", status := ChangeStatus.added }],
                   RemoteOp.publish (freshUuid 0) none],
         cachedPromptNames := [] }) := by
  exact ⟨by decide, by rfl⟩

-- ============================================================================
-- C1: localization correctness under a poisoned publish oracle
-- ============================================================================

/-- An environment is poisoned by the predicate `p` when draft creation
and pushes always succeed and a publish probe fails exactly when the
batch pushed to the probed draft contains at least one document
satisfying `p` (the poisoned subset F). -/
def PoisonedEnv (env : Env) (p : DocumentChange → Bool) : Prop :=
  (∀ n, env.createErr n = none) ∧
  (∀ b, env.pushErr b = none) ∧
  (∀ b, (env.publishErr b).isSome = b.any p)

/-- Under a poisoned environment a single-document probe reports
exactly the poisoned documents. -/
theorem poisoned_testSingle (env : Env) (p : DocumentChange → Bool)
    (hp : PoisonedEnv env p) (c : DocumentChange) (s : RemoteState) :
    ∃ s1 r, testSingleDocument env c s = (Except.ok r, s1) ∧
      r.map (fun fd => fd.path) = (if p c then some c.path else none) := by
  obtain ⟨hcreate, hpush, hpub⟩ := hp
  cases hq : env.publishErr [c] with
  | some e =>
      have hpc : p c = true := by
        have := hpub [c]
        rw [hq] at this
        simpa using this.symm
      exact ⟨_, _, testSingle_publishErr env c s e (hcreate _) (hpush _) hq,
             by simp [hpc, apiFailureDoc]⟩
  | none =>
      have hpc : p c = false := by
        have := hpub [c]
        rw [hq] at this
        simpa using this.symm
      exact ⟨_, _, testSingle_ok env c s (hcreate _) (hpush _) hq, by simp [hpc]⟩

/-- Under a poisoned environment the per-document pass reports exactly
the poisoned documents, in batch order. -/
theorem poisoned_testIndividually (env : Env) (p : DocumentChange → Bool)
    (hp : PoisonedEnv env p) (l : List DocumentChange) (s : RemoteState) :
    ∃ s1 fs, testDocumentsIndividually env l s = (Except.ok fs, s1) ∧
      fs.map (fun fd => fd.path) = (l.filter p).map (fun c => c.path) := by
  induction l generalizing s with
  | nil => exact ⟨s, [], rfl, by simp⟩
  | cons c rest ih =>
      obtain ⟨s1, r, hr, hrpath⟩ := poisoned_testSingle env p hp c s
      obtain ⟨s2, fsRest, hrest, hrestpath⟩ := ih s1
      cases hpc : p c with
      | true =>
          rw [hpc] at hrpath
          cases r with
          | none => simp at hrpath
          | some fd =>
              have hfd : fd.path = c.path := by simpa using hrpath
              refine ⟨s2, fd :: fsRest, ?_, ?_⟩
              · simp only [testDocumentsIndividually, hr, hrest]
                simp
              · simp [List.filter_cons_of_pos, hpc, hfd, hrestpath]
      | false =>
          rw [hpc] at hrpath
          cases r with
          | some fd => simp at hrpath
          | none =>
              refine ⟨s2, fsRest, ?_, ?_⟩
              · simp only [testDocumentsIndividually, hr, hrest]
                simp
              · simp [List.filter_cons_of_neg, hpc, hrestpath]

/-- Under a poisoned environment a whole-batch probe succeeds exactly
when the batch contains no poisoned document. -/
theorem poisoned_testBatch (env : Env) (p : DocumentChange → Bool)
    (hp : PoisonedEnv env p) (b : List DocumentChange) (s : RemoteState) :
    ∃ s1, testBatch env b s = (Except.ok (!b.any p), s1) := by
  obtain ⟨hcreate, hpush, hpub⟩ := hp
  cases hq : env.publishErr b with
  | some e =>
      have hb : b.any p = true := by
        have := hpub b
        rw [hq] at this
        simpa using this.symm
      refine ⟨{ s with ctr := s.ctr + 1,
                       drafts := (freshUuid s.ctr, b) :: s.drafts,
                       trace := s.trace ++ [RemoteOp.create (batchValDraftName env),
                                            RemoteOp.push (freshUuid s.ctr) b,
                                            RemoteOp.publish (freshUuid s.ctr) none] }, ?_⟩
      rw [testBatch_publishErr env b s e (hcreate _) (hpush _) hq, hb]
      rfl
  | none =>
      have hb : b.any p = false := by
        have := hpub b
        rw [hq] at this
        simpa using this.symm
      refine ⟨{ s with ctr := s.ctr + 1,
                       drafts := (freshUuid s.ctr, b) :: s.drafts,
                       trace := s.trace ++ [RemoteOp.create (batchValDraftName env),
                                            RemoteOp.push (freshUuid s.ctr) b,
                                            RemoteOp.publish (freshUuid s.ctr) none] }, ?_⟩
      rw [testBatch_ok env b s (hcreate _) (hpush _) hq, hb]
      rfl

/-- Under a poisoned environment the binary search returns exactly the
poisoned documents of the batch, in batch order, whenever the fuel is
at least the batch length (the recursion halves nonempty batches, so
the callers' choice `fuel = length` always suffices). -/
theorem poisoned_binarySearch (env : Env) (p : DocumentChange → Bool)
    (hp : PoisonedEnv env p) :
    ∀ (fuel : Nat) (changes : List DocumentChange) (s : RemoteState),
      changes ≠ [] → changes.length ≤ fuel →
      ∃ s1 fs, binarySearchFailures env fuel changes s = (Except.ok fs, s1) ∧
        fs.map (fun fd => fd.path) = (changes.filter p).map (fun c => c.path) := by
  intro fuel
  induction fuel with
  | zero =>
      intro changes s hne hlen
      exact absurd (List.length_eq_zero.mp (Nat.le_zero.mp hlen)) hne
  | succ fuel ih =>
      intro changes s hne hlen
      match changes with
      | [] => exact absurd rfl hne
      | [c] =>
          obtain ⟨s1, r, hr, hrpath⟩ := poisoned_testSingle env p hp c s
          cases hpc : p c with
          | true =>
              rw [hpc] at hrpath
              cases r with
              | none => simp at hrpath
              | some fd =>
                  have hfd : fd.path = c.path := by simpa using hrpath
                  refine ⟨s1, [fd], ?_, ?_⟩
                  · simp only [binarySearchFailures, hr]
                  · simp [List.filter_cons_of_pos, hpc, hfd]
          | false =>
              rw [hpc] at hrpath
              cases r with
              | some fd => simp at hrpath
              | none =>
                  refine ⟨s1, [], ?_, ?_⟩
                  · simp only [binarySearchFailures, hr]
                  · simp [List.filter_cons_of_neg, hpc]
      | c1 :: c2 :: rest =>
          obtain ⟨s1, hbatch⟩ := poisoned_testBatch env p hp (c1 :: c2 :: rest) s
          cases hany : (c1 :: c2 :: rest).any p with
          | false =>
              rw [hany] at hbatch
              simp only [Bool.not_false] at hbatch
              refine ⟨s1, [], ?_, ?_⟩
              · simp only [binarySearchFailures, hbatch]
              · have : (c1 :: c2 :: rest).filter p = [] := by
                  rw [List.filter_eq_nil_iff]
                  intro a ha
                  have := List.any_eq_false.mp hany a ha
                  simpa using this
                simp [this]
          | true =>
              rw [hany] at hbatch
              simp only [Bool.not_true] at hbatch
              have hlen2 : (c1 :: c2 :: rest).length = rest.length + 2 := by simp
              set L := c1 :: c2 :: rest with hL
              set mid := L.length / 2 with hmid
              have hmid1 : 1 ≤ mid := by
                rw [hmid, hL]
                simp
                omega
              have hmidlt : mid < L.length := by
                rw [hmid]
                exact Nat.div_lt_self (by rw [hL]; simp) (by omega)
              have hleft_ne : L.take mid ≠ [] := by
                intro hnil
                have := congrArg List.length hnil
                simp [List.length_take] at this
                omega
              have hright_ne : L.drop mid ≠ [] := by
                intro hnil
                have := congrArg List.length hnil
                simp [List.length_drop] at this
                omega
              have hleft_len : (L.take mid).length ≤ fuel := by
                simp [List.length_take]
                omega
              have hright_len : (L.drop mid).length ≤ fuel := by
                simp [List.length_drop]
                omega
              obtain ⟨s2, fsL, hLrec, hLpath⟩ := ih (L.take mid) s1 hleft_ne hleft_len
              obtain ⟨s3, fsR, hRrec, hRpath⟩ := ih (L.drop mid) s2 hright_ne hright_len
              refine ⟨s3, fsL ++ fsR, ?_, ?_⟩
              · simp only [binarySearchFailures, hbatch, ← hmid, ← hL, hLrec, hRrec]
              · rw [List.map_append, hLpath, hRpath, ← List.map_append, ← List.filter_append,
                    List.take_append_drop]

/-- C1: for any batch of non-delete document changes whose local
validation is clean, and any poisoned subset F (described by the
predicate `p`, with at least one poisoned change present) such that a
publish probe fails exactly when the probed batch meets F,
identifyFailingDocuments returns exactly the documents of F, in batch
order — for every batch size N, which covers both the per-document
linear path (N at most 5) and the binary-search path (N above 5). -/
theorem identifyFailingDocuments_poisoned (env : Env) (p : DocumentChange → Bool)
    (hp : PoisonedEnv env p) (changes : List DocumentChange) (s : RemoteState)
    (hnd : ∀ c ∈ changes, c.status ≠ ChangeStatus.deleted)
    (hclean : ∀ c ∈ changes,
      (validatePromptLContent env.scan c.content c.path).filter
        (fun i => i.type = "error") = [])
    (hF : ∃ c ∈ changes, p c = true) :
    ∃ s1 fs, identifyFailingDocuments env changes s = (Except.ok fs, s1) ∧
      fs.map (fun fd => fd.path) = (changes.filter p).map (fun c => c.path) := by
  have hfilter : changes.filter (fun c => !decide (c.status = ChangeStatus.deleted)) = changes := by
    rw [List.filter_eq_self]
    intro c hc
    simpa using hnd c hc
  have hne : changes ≠ [] := by
    rintro rfl
    obtain ⟨c, hc, _⟩ := hF
    exact absurd hc (List.not_mem_nil c)
  have hlen0 : ¬ (changes.length = 0) := by
    intro hzero
    exact hne (List.length_eq_zero.mp hzero)
  have hlocal : localFailures env changes = [] := by
    rw [localFailures, List.filterMap_eq_nil_iff]
    intro c hc
    by_cases hcontent : c.content = ""
    · simp [hcontent]
    · simp only [if_neg hcontent]
      rw [hclean c hc]
  simp only [identifyFailingDocuments, ne_eq, decide_not, hfilter, hlocal]
  rw [if_neg hlen0]
  simp only [List.length_nil, gt_iff_lt, Nat.lt_irrefl, if_false]
  by_cases hsmall : changes.length ≤ 5
  · rw [if_pos hsmall]
    exact poisoned_testIndividually env p hp changes s
  · rw [if_neg hsmall]
    exact poisoned_binarySearch env p hp changes.length changes s hne (Nat.le_refl _)

/-- Membership in the concrete poisoned subset used by the C1 witness:
exactly the document at path "d3". -/
def poisonPred (c : DocumentChange) : Bool :=
  c.path = "d3"

/-- The server-side rejection the poisoned remote answers with. -/
def poisonErr : ApiError :=
  { name := "APIError", errorCode := "HTTP_400",
    message := "There are some errors in the updated documents", statusCode := 400 }

/-- Concrete environment poisoned by `poisonPred`. -/
def poisonedEnvC1 : Env :=
  { okEnv with
    publishErr := fun b => if b.any poisonPred then some poisonErr else none }

/-- A concrete batch of 7 changes (binary-search path) containing the
poisoned document "d3". -/
def poisonedBatch : List DocumentChange :=
  [ { path := "d1", content := "c1", status := ChangeStatus.added },
    { path := "d2", content := "c2", status := ChangeStatus.added },
    { path := "d3", content := "c3", status := ChangeStatus.added },
    { path := "d4", content := "c4", status := ChangeStatus.modified },
    { path := "d5", content := "c5", status := ChangeStatus.added },
    { path := "d6", content := "c6", status := ChangeStatus.modified },
    { path := "d7", content := "c7", status := ChangeStatus.added } ]

/-- Witness for C1 on the concrete 7-document poisoned batch. -/
theorem identifyFailingDocuments_poisoned_witness :
    ∃ s1 fs, identifyFailingDocuments poisonedEnvC1 poisonedBatch initState = (Except.ok fs, s1) ∧
      fs.map (fun fd => fd.path) = (poisonedBatch.filter poisonPred).map (fun c => c.path) :=
  identifyFailingDocuments_poisoned poisonedEnvC1 poisonPred
    ⟨fun _ => rfl, fun _ => rfl,
     fun b => by
      cases h : b.any poisonPred with
      | false => simp only [poisonedEnvC1, h]; rfl
      | true => simp only [poisonedEnvC1, h]; rfl⟩
    poisonedBatch initState (by decide) (by decide) (by decide)

-- ============================================================================
-- C2: error handling of deployToLive
-- ============================================================================

/-- Evaluation of deployToLive up to a failing publish: with a
non-empty filtered change set, a clean draft creation and push, and a
rejected publish, the orchestrator runs the failure localizer over the
same filtered change set starting from the post-publish state. -/
theorem deployToLive_publishErr_eval (env : Env) (changes : List DocumentChange)
    (name : Option String) (s : RemoteState) (pubErr : ApiError)
    (hne : changes.filter (fun c => c.status ≠ ChangeStatus.unchanged) ≠ [])
    (hc : env.createErr ("MCP deploy " ++ env.nowIso) = none)
    (hpush : env.pushErr (changes.filter (fun c => c.status ≠ ChangeStatus.unchanged)) = none)
    (hq : env.publishErr (changes.filter (fun c => c.status ≠ ChangeStatus.unchanged)) = some pubErr) :
    Srv.deployToLive env changes name s =
      (match identifyFailingDocuments env
          (changes.filter (fun c => c.status ≠ ChangeStatus.unchanged))
          { s with
            ctr := s.ctr + 1
            drafts := (freshUuid s.ctr,
              changes.filter (fun c => c.status ≠ ChangeStatus.unchanged)) :: s.drafts
            trace := s.trace ++
              [RemoteOp.create ("MCP deploy " ++ env.nowIso),
               RemoteOp.push (freshUuid s.ctr)
                 (changes.filter (fun c => c.status ≠ ChangeStatus.unchanged)),
               RemoteOp.publish (freshUuid s.ctr) (some ("MCP deploy " ++ env.nowIso))] } with
       | (Except.error e, s4) => (Except.error e, s4)
       | (Except.ok failedDocs, s4) =>
           if failedDocs.length > 0 then
             (Except.error (documentValidationError failedDocs), s4)
           else (Except.error pubErr, s4)) := by
  simp only [ne_eq, decide_not] at hne hpush hq ⊢
  have hlen0 : ¬ (changes.length = 0) := by
    intro hzero
    rw [List.length_eq_zero.mp hzero] at hne
    exact hne rfl
  have hflen0 : ¬ ((changes.filter (fun c => !decide (c.status = ChangeStatus.unchanged))).length = 0) := by
    intro hzero
    exact hne (List.length_eq_zero.mp hzero)
  simp only [Srv.deployToLive, ne_eq, decide_not]
  rw [if_neg hlen0, if_neg hflen0]
  simp only [createVersionR, pushChangesR, publishVersionR, hc, hpush, List.lookup,
             List.append_assoc, List.cons_append, List.nil_append, beq_self_eq_true,
             if_true, Option.getD_some]
  simp [hq]

/-- C2: error handling of deployToLive (src/server.ts lines 933-1035)
for a non-empty filtered change set.
(i) An error thrown while creating the draft propagates unmodified and
no push, publish or localization probe is attempted (the only remote
call on record is the draft creation).
(ii) An error thrown by the push propagates unmodified and no publish
or localization probe is attempted.
(iii) When the publish fails, localization is always attempted over the
same filtered change set; if it yields one or more failing documents
the orchestrator raises the new enriched error — name
DocumentValidationError, code DOCUMENT_VALIDATION_FAILED, HTTP-like
status 422, details listing the failing documents, and a message that
concatenates, per failing document, the path, diagnostic code, error
message, root cause, location (if present), code frame (if present) and
fix suggestion — and if localization yields nothing, the original
publish error is re-thrown unmodified. -/
theorem deployToLive_error_handling (env : Env) (changes : List DocumentChange)
    (name : Option String) (s : RemoteState)
    (hne : changes.filter (fun c => c.status ≠ ChangeStatus.unchanged) ≠ []) :
    ((∀ e, env.createErr ("MCP deploy " ++ env.nowIso) = some e →
        Srv.deployToLive env changes name s =
          (Except.error e,
           { s with trace := s.trace ++ [RemoteOp.create ("MCP deploy " ++ env.nowIso)] })) ∧
     (∀ e, env.createErr ("MCP deploy " ++ env.nowIso) = none →
        env.pushErr (changes.filter (fun c => c.status ≠ ChangeStatus.unchanged)) = some e →
        Srv.deployToLive env changes name s =
          (Except.error e,
           { s with
             ctr := s.ctr + 1
             trace := s.trace ++
               [RemoteOp.create ("MCP deploy " ++ env.nowIso),
                RemoteOp.push (freshUuid s.ctr)
                  (changes.filter (fun c => c.status ≠ ChangeStatus.unchanged))] })) ∧
     (∀ pubErr failedDocs s4,
        env.createErr ("MCP deploy " ++ env.nowIso) = none →
        env.pushErr (changes.filter (fun c => c.status ≠ ChangeStatus.unchanged)) = none →
        env.publishErr (changes.filter (fun c => c.status ≠ ChangeStatus.unchanged)) = some pubErr →
        identifyFailingDocuments env
          (changes.filter (fun c => c.status ≠ ChangeStatus.unchanged))
          { s with
            ctr := s.ctr + 1
            drafts := (freshUuid s.ctr,
              changes.filter (fun c => c.status ≠ ChangeStatus.unchanged)) :: s.drafts
            trace := s.trace ++
              [RemoteOp.create ("MCP deploy " ++ env.nowIso),
               RemoteOp.push (freshUuid s.ctr)
                 (changes.filter (fun c => c.status ≠ ChangeStatus.unchanged)),
               RemoteOp.publish (freshUuid s.ctr) (some ("MCP deploy " ++ env.nowIso))] } =
          (Except.ok failedDocs, s4) →
        Srv.deployToLive env changes name s =
          (if failedDocs.length > 0 then
            (Except.error
              { name := "DocumentValidationError"
                errorCode := "DOCUMENT_VALIDATION_FAILED"
                message := toString failedDocs.length ++ " document(s) failed validation:" ++
                  String.intercalate "\n" (failedDocs.flatMap failedDocLines)
                statusCode := 422
                details := some
                  { failedDocuments := failedDocs
                    totalFailed := failedDocs.length
                    failedPaths := failedDocs.map (fun d => d.path) } }, s4)
          else (Except.error pubErr, s4)))) := by
  have hlen0 : ¬ (changes.length = 0) := by
    intro hzero
    rw [List.length_eq_zero.mp hzero] at hne
    simp at hne
  have hflen0 : ¬ ((changes.filter (fun c => !decide (c.status = ChangeStatus.unchanged))).length = 0) := by
    intro hzero
    apply hne
    simpa [ne_eq, decide_not] using List.length_eq_zero.mp hzero
  refine ⟨?_, ?_, ?_⟩
  · intro e hc
    simp only [Srv.deployToLive, ne_eq, decide_not]
    rw [if_neg hlen0, if_neg hflen0]
    simp [createVersionR, hc]
  · intro e hc hp
    simp only [ne_eq, decide_not] at hp
    simp only [Srv.deployToLive, ne_eq, decide_not]
    rw [if_neg hlen0, if_neg hflen0]
    simp [createVersionR, pushChangesR, hc, hp]
  · intro pubErr failedDocs s4 hc hp hq hident
    rw [deployToLive_publishErr_eval env changes name s pubErr hne hc hp hq]
    simp only [ne_eq, decide_not] at hident ⊢
    rw [hident]
    by_cases hfs : failedDocs.length > 0
    · simp only [if_pos hfs]
      rfl
    · simp only [if_neg hfs]

/-- The single change used by the C2 witness. -/
def d3change : DocumentChange :=
  { path := "d3", content := "c3", status := ChangeStatus.added }

/-- Failing documents the localizer finds in the C2 witness run. -/
def c2failedDocs : List FailedDocument :=
  [apiFailureDoc poisonedEnvC1 d3change poisonErr]

/-- Remote state after the C2 witness run: the deploy draft plus one
probe draft, each created, pushed to and published. -/
def c2endState : RemoteState :=
  { ctr := 2
    drafts := [(freshUuid 1, [d3change]), (freshUuid 0, [d3change])]
    trace := [RemoteOp.create ("MCP deploy " ++ poisonedEnvC1.nowIso),
              RemoteOp.push (freshUuid 0) [d3change],
              RemoteOp.publish (freshUuid 0) (some ("MCP deploy " ++ poisonedEnvC1.nowIso)),
              RemoteOp.create "val-0-d3",
              RemoteOp.push (freshUuid 1) [d3change],
              RemoteOp.publish (freshUuid 1) none]
    cachedPromptNames := [] }

/-- Witness for C2: on a concrete poisoned deploy the orchestrator
raises the enriched DOCUMENT_VALIDATION_FAILED error. -/
theorem deployToLive_error_handling_witness :
    (Srv.deployToLive poisonedEnvC1 [d3change] none initState).1 =
      Except.error (documentValidationError c2failedDocs) := by
  have h := (deployToLive_error_handling poisonedEnvC1 [d3change] none initState
      (by decide)).2.2 poisonErr c2failedDocs c2endState rfl rfl (by rfl) (by rfl)
  rw [h]
  rfl

-- ============================================================================
-- Diff engine lemmas (towards C6 and C7)
-- ============================================================================

/-- The per-incoming-document emission of computeDiff
(src/api.ts lines 351-371), over an already-built existing map. -/
def diffIncomingEmit (hash : String → String)
    (existingMap : List (String × (String × Option String)))
    (prompt : IncomingDoc) : Option DocumentChange :=
  match existingMap.lookup (normalizePath prompt.path) with
  | none => some { path := prompt.path, content := prompt.content, status := ChangeStatus.added }
  | some existingDoc =>
      if existingDoc.2 ≠ some (hash prompt.content) then
        some { path := existingDoc.1, content := prompt.content, status := ChangeStatus.modified }
      else none

/-- The per-existing-entry deletion emission of computeDiff
(src/api.ts lines 373-381). -/
def diffDeletedEmit (incomingPaths : List String)
    (e : String × (String × Option String)) : Option DocumentChange :=
  if incomingPaths.contains e.1 then none
  else some { path := e.2.1, content := "", status := ChangeStatus.deleted }

/-- computeDiff is the concatenation of the two emission passes. -/
theorem computeDiff_decompose (hash : String → String)
    (incoming : List IncomingDoc) (existing : List Document) :
    computeDiff hash incoming existing =
      incoming.filterMap
        (diffIncomingEmit hash
          (jsMapOfList (existing.map (fun d => (normalizePath d.path, (d.path, d.contentHash)))))) ++
      (jsMapOfList (existing.map (fun d => (normalizePath d.path, (d.path, d.contentHash))))).filterMap
        (diffDeletedEmit (incoming.map (fun p => normalizePath p.path))) := rfl

/-- Inserting a key absent from a JS map appends the binding. -/
theorem jsMapInsert_of_not_mem {α : Type} (m : List (String × α)) (k : String) (v : α)
    (h : ∀ e ∈ m, e.1 ≠ k) : jsMapInsert m k v = m ++ [(k, v)] := by
  have hcond : ¬ ((m.any (fun e => e.1 = k)) = true) := by
    simp only [List.any_eq_true, not_exists]
    intro e
    rintro ⟨he, hek⟩
    exact h e he (by simpa using hek)
  rw [jsMapInsert, if_neg hcond]

/-- Building a JS map from entries with pairwise distinct keys keeps
the entry list unchanged. -/
theorem jsMapOfList_nodup {α : Type} (l : List (String × α))
    (h : (l.map Prod.fst).Nodup) : jsMapOfList l = l := by
  have aux : ∀ (l : List (String × α)) (m : List (String × α)),
      (l.map Prod.fst).Nodup → (∀ e ∈ m, e.1 ∉ l.map Prod.fst) →
      l.foldl (fun m e => jsMapInsert m e.1 e.2) m = m ++ l := by
    intro l
    induction l with
    | nil => intro m _ _; simp
    | cons x rest ih =>
        intro m hnd hdisj
        simp only [List.map_cons, List.nodup_cons] at hnd
        have hins : jsMapInsert m x.1 x.2 = m ++ [x] := by
          rw [jsMapInsert_of_not_mem]
          intro e he hek
          exact hdisj e he (by simp [hek])
        simp only [List.foldl_cons, hins]
        rw [ih (m ++ [x]) hnd.2]
        · simp
        · intro e he
          rcases List.mem_append.mp he with he' | he'
          · intro hk
            exact hdisj e he' (by simp [hk])
          · have : e = x := by simpa using he'
            rw [this]
            exact hnd.1
  have := aux l [] h (by simp)
  simpa [jsMapOfList] using this

/-- A lookup of a key that appears in no entry returns none. -/
theorem lookup_eq_none_of_not_mem {α : Type} (l : List (String × α)) (k : String)
    (h : k ∉ l.map Prod.fst) : l.lookup k = none := by
  induction l with
  | nil => rfl
  | cons e rest ih =>
      simp only [List.map_cons, List.mem_cons, not_or] at h
      have hbeq : (k == e.1) = false := by simp [h.1]
      rw [List.lookup, hbeq]
      exact ih h.2

/-- Looking up the key of a binding in an entry list with pairwise
distinct keys returns that binding. -/
theorem lookup_of_mem_nodup {α : Type} (l : List (String × α)) (k : String) (v : α)
    (h : (l.map Prod.fst).Nodup) (hm : (k, v) ∈ l) : l.lookup k = some v := by
  induction l with
  | nil => exact absurd hm (List.not_mem_nil _)
  | cons e rest ih =>
      simp only [List.map_cons, List.nodup_cons] at h
      rcases List.mem_cons.mp hm with he | hrest
      · rw [← he, List.lookup]
        simp
      · have hk : (k == e.1) = false := by
          simp only [beq_eq_false_iff_ne, ne_eq]
          intro hkk
          apply h.1
          rw [← hkk]
          exact List.mem_map.mpr ⟨(k, v), hrest, rfl⟩
        rw [List.lookup, hk]
        exact ih h.2 hrest

/-- A successful lookup returns one of the list's bindings. -/
theorem mem_of_lookup_eq_some {α : Type} (l : List (String × α)) (k : String) (v : α)
    (h : l.lookup k = some v) : (k, v) ∈ l := by
  induction l with
  | nil => simp [List.lookup] at h
  | cons e rest ih =>
      rw [List.lookup] at h
      cases hk : (k == e.1) with
      | true =>
          rw [hk] at h
          have h1 : k = e.1 := by simpa using hk
          have h2 : v = e.2 := by simpa using h.symm
          have hkv : (k, v) = e := by rw [h1, h2]
          rw [hkv]
          exact List.mem_cons_self _ _
      | false =>
          rw [hk] at h
          exact List.mem_cons_of_mem _ (ih h)

/-- If every emitted element carries the key of its source, emission
from a list with pairwise distinct keys yields pairwise distinct
keys. -/
theorem filterMap_keys_nodup {α β K : Type} (f : α → Option β)
    (keyA : α → K) (keyB : β → K) (l : List α)
    (compat : ∀ a ∈ l, ∀ b, f a = some b → keyB b = keyA a)
    (h : (l.map keyA).Nodup) : ((l.filterMap f).map keyB).Nodup := by
  induction l with
  | nil => simp
  | cons x rest ih =>
      simp only [List.map_cons, List.nodup_cons] at h
      have hrest := ih (fun a ha b hb => compat a (List.mem_cons_of_mem _ ha) b hb) h.2
      cases hfx : f x with
      | none => simpa [List.filterMap_cons, hfx] using hrest
      | some b =>
          simp only [List.filterMap_cons, hfx, List.map_cons, List.nodup_cons]
          refine ⟨?_, hrest⟩
          intro hmem
          rcases List.mem_map.mp hmem with ⟨b', hb', hkey⟩
          rcases List.mem_filterMap.mp hb' with ⟨a', ha', hfa'⟩
          have h1 : keyB b' = keyA a' := compat a' (List.mem_cons_of_mem _ ha') b' hfa'
          have h2 : keyB b = keyA x := compat x (List.mem_cons_self _ _) b hfx
          apply h.1
          rw [← h2, ← hkey, h1]
          exact List.mem_map.mpr ⟨a', ha', rfl⟩

/-- Filtering the emission of a distinct-key list by a key that no
source carries yields nothing. -/
theorem filterMap_filter_key_none {α β K : Type} [DecidableEq K] (f : α → Option β)
    (keyA : α → K) (keyB : β → K) (l : List α)
    (compat : ∀ a ∈ l, ∀ b, f a = some b → keyB b = keyA a)
    (k : K) (hk : ∀ a ∈ l, keyA a ≠ k) :
    (l.filterMap f).filter (fun b => keyB b = k) = [] := by
  rw [List.filter_eq_nil_iff]
  intro b hb
  rcases List.mem_filterMap.mp hb with ⟨a, ha, hfa⟩
  have h1 : keyB b = keyA a := compat a ha b hfa
  simp only [decide_eq_true_eq]
  rw [h1]
  exact hk a ha

/-- Filtering the emission of a distinct-key list by the key of one of
its sources yields exactly that source's emission. -/
theorem filterMap_filter_key {α β K : Type} [DecidableEq K] (f : α → Option β)
    (keyA : α → K) (keyB : β → K) (l : List α)
    (compat : ∀ a ∈ l, ∀ b, f a = some b → keyB b = keyA a)
    (h : (l.map keyA).Nodup) (a : α) (ha : a ∈ l) :
    (l.filterMap f).filter (fun b => keyB b = keyA a) = (f a).toList := by
  induction l with
  | nil => exact absurd ha (List.not_mem_nil _)
  | cons x rest ih =>
      simp only [List.map_cons, List.nodup_cons] at h
      have compat' : ∀ a' ∈ rest, ∀ b, f a' = some b → keyB b = keyA a' :=
        fun a' ha' b hb => compat a' (List.mem_cons_of_mem _ ha') b hb
      rcases List.mem_cons.mp ha with rfl | harest
      · have hrest : (rest.filterMap f).filter (fun b => keyB b = keyA a) = [] := by
          apply filterMap_filter_key_none f keyA keyB rest compat'
          intro a' ha' hkk
          exact h.1 (hkk ▸ List.mem_map.mpr ⟨a', ha', rfl⟩)
        cases hfx : f a with
        | none => simpa [List.filterMap_cons, hfx] using hrest
        | some b =>
            have hkb : keyB b = keyA a := compat a (List.mem_cons_self _ _) b hfx
            simp only [List.filterMap_cons, hfx]
            rw [List.filter_cons_of_pos (by simp [hkb])]
            rw [hrest]
            rfl
      · have hkx : keyA a ≠ keyA x := by
          intro hkk
          exact h.1 (hkk ▸ List.mem_map.mpr ⟨a, harest, rfl⟩)
        have htail := ih compat' h.2 harest
        cases hfx : f x with
        | none => simpa [List.filterMap_cons, hfx] using htail
        | some b =>
            have hkb : keyB b = keyA x := compat x (List.mem_cons_self _ _) b hfx
            simp only [List.filterMap_cons, hfx]
            rw [List.filter_cons_of_neg (by simp only [hkb, decide_eq_true_eq]; exact fun hkk => hkx hkk.symm)]
            exact htail

-- ============================================================================
-- C7: diff idempotence
-- ============================================================================

/-- C7: diffing a document set against itself — the same paths and
contents supplied both as the incoming list and as the existing
document list — yields an empty change list.  The hypotheses are the
data-model invariants: documents are unique by normalized path within
one version, and the stored contentHash is the hash of the stored
content. -/
theorem computeDiff_idempotent (hash : String → String) (X : List Document)
    (hE : (X.map (fun d => normalizePath d.path)).Nodup)
    (hH : ∀ d ∈ X, d.contentHash = some (hash d.content)) :
    computeDiff hash (X.map (fun d => { path := d.path, content := d.content })) X = [] := by
  have hEMkeys :
      ((X.map (fun d => (normalizePath d.path, (d.path, d.contentHash)))).map Prod.fst) =
        X.map (fun d => normalizePath d.path) := by
    rw [List.map_map]
    rfl
  have hEMnodup :
      ((X.map (fun d => (normalizePath d.path, (d.path, d.contentHash)))).map Prod.fst).Nodup := by
    rw [hEMkeys]; exact hE
  have hIkeys :
      ((X.map (fun d => ({ path := d.path, content := d.content } : IncomingDoc))).map
        (fun p => normalizePath p.path)) = X.map (fun d => normalizePath d.path) := by
    rw [List.map_map]
    rfl
  rw [computeDiff_decompose, jsMapOfList_nodup _ hEMnodup]
  have hinc : (X.map (fun d => ({ path := d.path, content := d.content } : IncomingDoc))).filterMap
      (diffIncomingEmit hash
        (X.map (fun d => (normalizePath d.path, (d.path, d.contentHash))))) = [] := by
    rw [List.filterMap_eq_nil_iff]
    intro p hp
    rcases List.mem_map.mp hp with ⟨d, hd, rfl⟩
    have hmem : (normalizePath d.path, (d.path, d.contentHash)) ∈
        X.map (fun d => (normalizePath d.path, (d.path, d.contentHash))) :=
      List.mem_map.mpr ⟨d, hd, rfl⟩
    have hlk := lookup_of_mem_nodup _ _ _ hEMnodup hmem
    simp only [diffIncomingEmit, hlk]
    rw [if_neg]
    simp only [ne_eq, not_not]
    exact hH d hd
  have hdel : (X.map (fun d => (normalizePath d.path, (d.path, d.contentHash)))).filterMap
      (diffDeletedEmit ((X.map (fun d => ({ path := d.path, content := d.content } : IncomingDoc))).map
        (fun p => normalizePath p.path))) = [] := by
    rw [List.filterMap_eq_nil_iff]
    intro e he
    rcases List.mem_map.mp he with ⟨d, hd, rfl⟩
    rw [diffDeletedEmit, if_pos]
    rw [hIkeys]
    exact List.elem_eq_true_of_mem (List.mem_map.mpr ⟨d, hd, rfl⟩)
  rw [hinc, hdel]
  rfl

/-- A concrete two-document set for the C7 witness. -/
def idemX : List Document :=
  [ { path := "a/b", content := "x", contentHash := some ("h" ++ "x") },
    { path := "c", content := "y", contentHash := some ("h" ++ "y") } ]

/-- Witness for C7 on a concrete two-document set. -/
theorem computeDiff_idempotent_witness :
    computeDiff (fun s => "h" ++ s)
      (idemX.map (fun d => { path := d.path, content := d.content })) idemX = [] :=
  computeDiff_idempotent (fun s => "h" ++ s) idemX (by decide) (by decide)

-- ============================================================================
-- C6: diff completeness
-- ============================================================================

/-- The existing-map entry built from a document. -/
def docEntry (d : Document) : String × (String × Option String) :=
  (normalizePath d.path, (d.path, d.contentHash))

/-- Every change emitted by the incoming pass carries the normalized
path of its source prompt (for `modified`, the stored path of the
matched existing entry normalizes to the same key). -/
theorem diffIncomingEmit_key (hash : String → String) (E : List Document)
    (p : IncomingDoc) (c : DocumentChange)
    (h : diffIncomingEmit hash (E.map docEntry) p = some c) :
    normalizePath c.path = normalizePath p.path := by
  rw [diffIncomingEmit] at h
  cases hlk : (E.map docEntry).lookup (normalizePath p.path) with
  | none =>
      rw [hlk] at h
      have h' : some { path := p.path, content := p.content, status := ChangeStatus.added } =
          some c := h
      have : c = { path := p.path, content := p.content, status := ChangeStatus.added } := by
        simpa using h'.symm
      rw [this]
  | some v =>
      rw [hlk] at h
      have h' : (if v.2 ≠ some (hash p.content) then
          some { path := v.1, content := p.content, status := ChangeStatus.modified }
        else none) = some c := h
      have hmem := mem_of_lookup_eq_some _ _ _ hlk
      rcases List.mem_map.mp hmem with ⟨d, _, hd⟩
      have hv1 : v.1 = d.path := by
        have := congrArg (fun e => e.2.1) hd
        simpa [docEntry] using this.symm
      have hkey : normalizePath d.path = normalizePath p.path := by
        have := congrArg (fun e => e.1) hd
        simpa [docEntry] using this
      by_cases hne : v.2 ≠ some (hash p.content)
      · rw [if_pos hne] at h'
        have : c = { path := v.1, content := p.content, status := ChangeStatus.modified } := by
          simpa using h'.symm
        rw [this, hv1]
        exact hkey
      · rw [if_neg hne] at h'
        exact absurd h' (by simp)

/-- Every change emitted by the incoming pass is `added` or
`modified`. -/
theorem diffIncomingEmit_status (hash : String → String)
    (em : List (String × (String × Option String))) (p : IncomingDoc) (c : DocumentChange)
    (h : diffIncomingEmit hash em p = some c) :
    c.status = ChangeStatus.added ∨ c.status = ChangeStatus.modified := by
  rw [diffIncomingEmit] at h
  cases hlk : em.lookup (normalizePath p.path) with
  | none =>
      rw [hlk] at h
      have h' : some { path := p.path, content := p.content, status := ChangeStatus.added } =
          some c := h
      left
      have : c = { path := p.path, content := p.content, status := ChangeStatus.added } := by
        simpa using h'.symm
      rw [this]
  | some v =>
      rw [hlk] at h
      have h' : (if v.2 ≠ some (hash p.content) then
          some { path := v.1, content := p.content, status := ChangeStatus.modified }
        else none) = some c := h
      by_cases hne : v.2 ≠ some (hash p.content)
      · rw [if_pos hne] at h'
        right
        have : c = { path := v.1, content := p.content, status := ChangeStatus.modified } := by
          simpa using h'.symm
        rw [this]
      · rw [if_neg hne] at h'
        exact absurd h' (by simp)

/-- Every change emitted by the deletion pass carries the key of its
entry, has status `deleted`, and its key is absent from the incoming
paths. -/
theorem diffDeletedEmit_spec (ikeys : List String)
    (e : String × (String × Option String)) (c : DocumentChange)
    (h : diffDeletedEmit ikeys e = some c) :
    c.path = e.2.1 ∧ c.status = ChangeStatus.deleted ∧ e.1 ∉ ikeys := by
  rw [diffDeletedEmit] at h
  by_cases hcon : ikeys.contains e.1 = true
  · rw [if_pos hcon] at h
    exact absurd h (by simp)
  · rw [if_neg hcon] at h
    have : c = { path := e.2.1, content := "", status := ChangeStatus.deleted } := by
      simpa using h.symm
    refine ⟨by rw [this], by rw [this], ?_⟩
    intro hmem
    exact hcon (List.elem_eq_true_of_mem hmem)

/-- The key of every change emitted by the deletion pass over document
entries is the normalized stored path. -/
theorem diffDeletedEmit_key (ikeys : List String) (E : List Document)
    (e : String × (String × Option String)) (he : e ∈ E.map docEntry) (c : DocumentChange)
    (h : diffDeletedEmit ikeys e = some c) :
    normalizePath c.path = e.1 := by
  rcases List.mem_map.mp he with ⟨d, _, hd⟩
  have h1 := (diffDeletedEmit_spec ikeys e c h).1
  have h2 : e.2.1 = d.path := by
    have := congrArg (fun x => x.2.1) hd
    simpa [docEntry] using this.symm
  have h3 : e.1 = normalizePath d.path := by
    have := congrArg (fun x => x.1) hd
    simpa [docEntry] using this.symm
  rw [h1, h2, h3]

/-- computeDiff decomposed over document entries. -/
theorem computeDiff_decompose₂ (hash : String → String)
    (incoming : List IncomingDoc) (existing : List Document) :
    computeDiff hash incoming existing =
      incoming.filterMap (diffIncomingEmit hash (jsMapOfList (existing.map docEntry))) ++
      (jsMapOfList (existing.map docEntry)).filterMap
        (diffDeletedEmit (incoming.map (fun p => normalizePath p.path))) := rfl

set_option maxHeartbeats 1600000 in
/-- C6 (amended): under the data-model invariant that the normalized
paths of the incoming list and of the existing document list are each
pairwise distinct, computeDiff emits each incoming path absent from the
existing set as `added` exactly once (and nothing else at that
normalized path), each existing path absent from the incoming set as
`deleted` exactly once, each path present in both with differing stored
content hash as `modified` exactly once, and no normalized path appears
under two different statuses. -/
theorem computeDiff_complete (hash : String → String)
    (I : List IncomingDoc) (E : List Document)
    (hI : (I.map (fun p => normalizePath p.path)).Nodup)
    (hE : (E.map (fun d => normalizePath d.path)).Nodup) :
    (∀ p ∈ I, (∀ d ∈ E, normalizePath d.path ≠ normalizePath p.path) →
      (computeDiff hash I E).filter
          (fun c => normalizePath c.path = normalizePath p.path) =
        [{ path := p.path, content := p.content, status := ChangeStatus.added }]) ∧
    (∀ d ∈ E, (∀ p ∈ I, normalizePath p.path ≠ normalizePath d.path) →
      (computeDiff hash I E).filter
          (fun c => normalizePath c.path = normalizePath d.path) =
        [{ path := d.path, content := "", status := ChangeStatus.deleted }]) ∧
    (∀ p ∈ I, ∀ d ∈ E, normalizePath d.path = normalizePath p.path →
      d.contentHash ≠ some (hash p.content) →
      (computeDiff hash I E).filter
          (fun c => normalizePath c.path = normalizePath p.path) =
        [{ path := d.path, content := p.content, status := ChangeStatus.modified }]) ∧
    (∀ c1 ∈ computeDiff hash I E, ∀ c2 ∈ computeDiff hash I E,
      normalizePath c1.path = normalizePath c2.path → c1.status = c2.status) := by
  have hEM : (E.map docEntry).map Prod.fst = E.map (fun d => normalizePath d.path) := by
    rw [List.map_map]
    rfl
  have hEMnodup : ((E.map docEntry).map Prod.fst).Nodup := by rw [hEM]; exact hE
  have hcollapse : jsMapOfList (E.map docEntry) = E.map docEntry :=
    jsMapOfList_nodup _ hEMnodup
  have compatInc : ∀ p ∈ I, ∀ c, diffIncomingEmit hash (E.map docEntry) p = some c →
      (fun c : DocumentChange => normalizePath c.path) c =
      (fun q : IncomingDoc => normalizePath q.path) p :=
    fun p _ c hc => diffIncomingEmit_key hash E p c hc
  have compatDel : ∀ e ∈ E.map docEntry, ∀ c,
      diffDeletedEmit (I.map (fun p => normalizePath p.path)) e = some c →
      (fun c : DocumentChange => normalizePath c.path) c = Prod.fst e :=
    fun e he c hc => diffDeletedEmit_key _ E e he c hc
  refine ⟨?_, ?_, ?_, ?_⟩
  · -- added exactly once
    intro p hp habs
    rw [computeDiff_decompose₂, hcollapse, List.filter_append]
    have h1 : (I.filterMap (diffIncomingEmit hash (E.map docEntry))).filter
        (fun c => normalizePath c.path = normalizePath p.path) =
        (diffIncomingEmit hash (E.map docEntry) p).toList := by
      simpa using filterMap_filter_key (diffIncomingEmit hash (E.map docEntry))
        (fun q => normalizePath q.path) (fun c => normalizePath c.path) I compatInc hI p hp
    have hlknone : (E.map docEntry).lookup (normalizePath p.path) = none := by
      apply lookup_eq_none_of_not_mem
      rw [hEM]
      intro hmem
      rcases List.mem_map.mp hmem with ⟨d, hd, hdk⟩
      exact habs d hd hdk
    have h2 : ((E.map docEntry).filterMap
        (diffDeletedEmit (I.map (fun q => normalizePath q.path)))).filter
        (fun c => normalizePath c.path = normalizePath p.path) = [] := by
      simpa using filterMap_filter_key_none
        (diffDeletedEmit (I.map (fun q => normalizePath q.path)))
        Prod.fst (fun c => normalizePath c.path) (E.map docEntry) compatDel
        (normalizePath p.path)
        (by
          intro e he hek
          rcases List.mem_map.mp he with ⟨d, hd, rfl⟩
          exact habs d hd hek)
    rw [h1, h2, diffIncomingEmit, hlknone]
    rfl
  · -- deleted exactly once
    intro d hd habs
    rw [computeDiff_decompose₂, hcollapse, List.filter_append]
    have h1 : (I.filterMap (diffIncomingEmit hash (E.map docEntry))).filter
        (fun c => normalizePath c.path = normalizePath d.path) = [] := by
      simpa using filterMap_filter_key_none (diffIncomingEmit hash (E.map docEntry))
        (fun q => normalizePath q.path) (fun c => normalizePath c.path) I compatInc
        (normalizePath d.path)
        (by
          intro p hp hpk
          exact habs p hp hpk)
    have h2 : ((E.map docEntry).filterMap
        (diffDeletedEmit (I.map (fun q => normalizePath q.path)))).filter
        (fun c => normalizePath c.path = normalizePath d.path) =
        (diffDeletedEmit (I.map (fun q => normalizePath q.path)) (docEntry d)).toList := by
      have hmem : docEntry d ∈ E.map docEntry := List.mem_map.mpr ⟨d, hd, rfl⟩
      simpa [docEntry] using filterMap_filter_key
        (diffDeletedEmit (I.map (fun q => normalizePath q.path)))
        Prod.fst (fun c => normalizePath c.path) (E.map docEntry) compatDel
        hEMnodup (docEntry d) hmem
    have hcon : (I.map (fun q => normalizePath q.path)).contains (normalizePath d.path) = false := by
      cases hc : (I.map (fun q => normalizePath q.path)).contains (normalizePath d.path) with
      | false => rfl
      | true =>
          exfalso
          have hmem : normalizePath d.path ∈ I.map (fun q => normalizePath q.path) := by
            simpa using hc
          rcases List.mem_map.mp hmem with ⟨p, hp, hpk⟩
          exact habs p hp hpk
    rw [h1, h2, diffDeletedEmit]
    simp only [docEntry, hcon]
    rfl
  · -- modified exactly once
    intro p hp d hd hkey hhash
    rw [computeDiff_decompose₂, hcollapse, List.filter_append]
    have h1 : (I.filterMap (diffIncomingEmit hash (E.map docEntry))).filter
        (fun c => normalizePath c.path = normalizePath p.path) =
        (diffIncomingEmit hash (E.map docEntry) p).toList := by
      simpa using filterMap_filter_key (diffIncomingEmit hash (E.map docEntry))
        (fun q => normalizePath q.path) (fun c => normalizePath c.path) I compatInc hI p hp
    have hlk : (E.map docEntry).lookup (normalizePath p.path) = some (d.path, d.contentHash) := by
      apply lookup_of_mem_nodup _ _ _ hEMnodup
      have : docEntry d ∈ E.map docEntry := List.mem_map.mpr ⟨d, hd, rfl⟩
      rw [docEntry] at this
      rw [← hkey]
      exact this
    have h2 : ((E.map docEntry).filterMap
        (diffDeletedEmit (I.map (fun q => normalizePath q.path)))).filter
        (fun c => normalizePath c.path = normalizePath p.path) =
        (diffDeletedEmit (I.map (fun q => normalizePath q.path)) (docEntry d)).toList := by
      have hmem : docEntry d ∈ E.map docEntry := List.mem_map.mpr ⟨d, hd, rfl⟩
      have := filterMap_filter_key
        (diffDeletedEmit (I.map (fun q => normalizePath q.path)))
        Prod.fst (fun c => normalizePath c.path) (E.map docEntry) compatDel
        hEMnodup (docEntry d) hmem
      simpa [docEntry, hkey] using this
    have hcon : (I.map (fun q => normalizePath q.path)).contains (normalizePath d.path) = true := by
      apply List.elem_eq_true_of_mem
      rw [hkey]
      exact List.mem_map.mpr ⟨p, hp, rfl⟩
    rw [h1, h2, diffIncomingEmit, hlk, diffDeletedEmit]
    simp only [docEntry, hcon]
    rw [if_pos hhash]
    rfl
  · -- no path under two statuses
    intro c1 hc1 c2 hc2 hkey
    rw [computeDiff_decompose₂, hcollapse] at hc1 hc2
    have hincnodup := filterMap_keys_nodup (diffIncomingEmit hash (E.map docEntry))
      (fun q => normalizePath q.path) (fun c => normalizePath c.path) I compatInc hI
    have hdelnodup : (((E.map docEntry).filterMap
        (diffDeletedEmit (I.map (fun q => normalizePath q.path)))).map
        (fun c => normalizePath c.path)).Nodup := by
      apply filterMap_keys_nodup (diffDeletedEmit (I.map (fun q => normalizePath q.path)))
        (fun e => e.1) (fun c => normalizePath c.path) (E.map docEntry)
      · exact compatDel
      · exact hEMnodup
    have hmemInc : ∀ c, c ∈ I.filterMap (diffIncomingEmit hash (E.map docEntry)) →
        normalizePath c.path ∈ I.map (fun q => normalizePath q.path) := by
      intro c hc
      rcases List.mem_filterMap.mp hc with ⟨q, hq, hemit⟩
      rw [diffIncomingEmit_key hash E q c hemit]
      exact List.mem_map.mpr ⟨q, hq, rfl⟩
    have hmemDel : ∀ c, c ∈ (E.map docEntry).filterMap
        (diffDeletedEmit (I.map (fun q => normalizePath q.path))) →
        normalizePath c.path ∉ I.map (fun q => normalizePath q.path) := by
      intro c hc
      rcases List.mem_filterMap.mp hc with ⟨e, he, hemit⟩
      rw [diffDeletedEmit_key _ E e he c hemit]
      exact (diffDeletedEmit_spec _ e c hemit).2.2
    rcases List.mem_append.mp hc1 with h1 | h1 <;>
      rcases List.mem_append.mp hc2 with h2 | h2
    · have := List.inj_on_of_nodup_map hincnodup h1 h2 hkey
      rw [this]
    · exact absurd (hkey ▸ hmemInc c1 h1) (hmemDel c2 h2)
    · exact absurd (hkey.symm ▸ hmemInc c2 h2) (hmemDel c1 h1)
    · have := List.inj_on_of_nodup_map hdelnodup h1 h2 hkey
      rw [this]

/-- Concrete incoming list for the C6 witness. -/
def c6incoming : List IncomingDoc :=
  [ { path := "a", content := "newA" }, { path := "b", content := "bb" } ]

/-- Concrete existing documents for the C6 witness. -/
def c6existing : List Document :=
  [ { path := "b", content := "old", contentHash := some "old" },
    { path := "c", content := "cc", contentHash := some "cc" } ]

/-- Witness for C6: on a concrete diff, "a" is added exactly once, "c"
is deleted exactly once and "b" is modified exactly once. -/
theorem computeDiff_complete_witness :
    ((computeDiff (fun s => s) c6incoming c6existing).filter
        (fun c => normalizePath c.path = normalizePath "a") =
      [{ path := "a", content := "newA", status := ChangeStatus.added }]) ∧
    ((computeDiff (fun s => s) c6incoming c6existing).filter
        (fun c => normalizePath c.path = normalizePath "c") =
      [{ path := "c", content := "", status := ChangeStatus.deleted }]) ∧
    ((computeDiff (fun s => s) c6incoming c6existing).filter
        (fun c => normalizePath c.path = normalizePath "b") =
      [{ path := "b", content := "bb", status := ChangeStatus.modified }]) :=
  ⟨(computeDiff_complete (fun s => s) c6incoming c6existing (by decide) (by decide)).1
      { path := "a", content := "newA" } (by decide) (by decide),
   (computeDiff_complete (fun s => s) c6incoming c6existing (by decide) (by decide)).2.1
      { path := "c", content := "cc", contentHash := some "cc" } (by decide) (by decide),
   (computeDiff_complete (fun s => s) c6incoming c6existing (by decide) (by decide)).2.2.1
      { path := "b", content := "bb" } (by decide)
      { path := "b", content := "old", contentHash := some "old" } (by decide) (by decide)
      (by decide)⟩

/-- Counterexample to C6 as stated over arbitrary incoming lists: when
two incoming entries normalize to the same path ("a" and "/a"), both
match the same existing document and the diff emits the path "a" as
`modified` twice, contradicting "exactly once".  The amended claim
therefore requires the incoming and existing normalized paths to be
pairwise distinct (the data model's identity invariant). -/
theorem computeDiff_duplicate_modified_twice :
    computeDiff (fun s => s)
        [ { path := "a", content := "x" }, { path := "/a", content := "y" } ]
        [ { path := "a", content := "z", contentHash := some "z" } ] =
      [ { path := "a", content := "x", status := ChangeStatus.modified },
        { path := "a", content := "y", status := ChangeStatus.modified } ] ∧
    ((computeDiff (fun s => s)
        [ { path := "a", content := "x" }, { path := "/a", content := "y" } ]
        [ { path := "a", content := "z", contentHash := some "z" } ]).filter
      (fun c => c.status = ChangeStatus.modified ∧
        normalizePath c.path = normalizePath "a")).length = 2 :=
  ⟨by decide, by decide⟩

-- ============================================================================
-- C9: success path of deployToLive
-- ============================================================================

/-- C9 (amended): on a fully successful deploy of a non-empty filtered
change set, each deployToLive variant creates exactly one draft, pushes
the entire filtered change set in a single batch call, publishes, and
returns the add/modify/delete path lists computed from the filtered
change set before the remote calls (not re-derived from the server
response).  The api.ts variant (the one invoked by the push tool) names
the draft from the caller-supplied name when a non-empty one is
provided, and otherwise (absent or empty, the JavaScript falsy rule)
from the auto-generated label `mcp-draft-<timestamp>`; the server.ts
variant ignores the caller-supplied name and always uses the
auto-generated label `MCP deploy <timestamp>`. -/
theorem deployToLive_success_path (env : Env) (changes : List DocumentChange)
    (name : Option String) (s : RemoteState)
    (hne : changes.filter (fun c => c.status ≠ ChangeStatus.unchanged) ≠ [])
    (hcApi : env.createErr (jsOrStr name ("mcp-draft-" ++ toString env.now)) = none)
    (hcSrv : env.createErr ("MCP deploy " ++ env.nowIso) = none)
    (hpush : env.pushErr (changes.filter (fun c => c.status ≠ ChangeStatus.unchanged)) = none)
    (hpub : env.publishErr (changes.filter (fun c => c.status ≠ ChangeStatus.unchanged)) = none) :
    (Api.deployToLive env changes name s =
      (Except.ok
        { version := Api.mergedVersion env
            { id := s.ctr + 1, uuid := freshUuid s.ctr, projectId := 0,
              message := jsOrStr name ("mcp-draft-" ++ toString env.now),
              createdAt := env.nowIso, updatedAt := env.nowIso, status := "draft" }
            (env.publishedVersion (freshUuid s.ctr)).uuid name
          documentsProcessed := Api.jsOrNat
            (env.processedOpt (changes.filter (fun c => c.status ≠ ChangeStatus.unchanged)))
            (changes.filter (fun c => c.status ≠ ChangeStatus.unchanged)).length
          added := ((changes.filter (fun c => c.status ≠ ChangeStatus.unchanged)).filter
            (fun c => c.status = ChangeStatus.added)).map (fun c => c.path)
          modified := ((changes.filter (fun c => c.status ≠ ChangeStatus.unchanged)).filter
            (fun c => c.status = ChangeStatus.modified)).map (fun c => c.path)
          deleted := ((changes.filter (fun c => c.status ≠ ChangeStatus.unchanged)).filter
            (fun c => c.status = ChangeStatus.deleted)).map (fun c => c.path) },
       { s with
         ctr := s.ctr + 1
         drafts := (freshUuid s.ctr,
           changes.filter (fun c => c.status ≠ ChangeStatus.unchanged)) :: s.drafts
         trace := s.trace ++
           [RemoteOp.create (jsOrStr name ("mcp-draft-" ++ toString env.now)),
            RemoteOp.push (freshUuid s.ctr)
              (changes.filter (fun c => c.status ≠ ChangeStatus.unchanged)),
            RemoteOp.publish (freshUuid s.ctr) none] })) ∧
    (Srv.deployToLive env changes name s =
      (Except.ok
        { version := env.publishedVersion (freshUuid s.ctr)
          documentsProcessed :=
            (env.processedOpt (changes.filter (fun c => c.status ≠ ChangeStatus.unchanged))).getD 0
          added := ((changes.filter (fun c => c.status ≠ ChangeStatus.unchanged)).filter
            (fun c => c.status = ChangeStatus.added)).map (fun c => c.path)
          modified := ((changes.filter (fun c => c.status ≠ ChangeStatus.unchanged)).filter
            (fun c => c.status = ChangeStatus.modified)).map (fun c => c.path)
          deleted := ((changes.filter (fun c => c.status ≠ ChangeStatus.unchanged)).filter
            (fun c => c.status = ChangeStatus.deleted)).map (fun c => c.path) },
       { s with
         ctr := s.ctr + 1
         drafts := (freshUuid s.ctr,
           changes.filter (fun c => c.status ≠ ChangeStatus.unchanged)) :: s.drafts
         trace := s.trace ++
           [RemoteOp.create ("MCP deploy " ++ env.nowIso),
            RemoteOp.push (freshUuid s.ctr)
              (changes.filter (fun c => c.status ≠ ChangeStatus.unchanged)),
            RemoteOp.publish (freshUuid s.ctr) (some ("MCP deploy " ++ env.nowIso))] })) := by
  simp only [ne_eq, decide_not] at hne hpush hpub ⊢
  have hlen0 : ¬ (changes.length = 0) := by
    intro hzero
    rw [List.length_eq_zero.mp hzero] at hne
    exact hne rfl
  have hflen0 : ¬ ((changes.filter (fun c => !decide (c.status = ChangeStatus.unchanged))).length = 0) := by
    intro hzero
    exact hne (List.length_eq_zero.mp hzero)
  constructor
  · simp only [Api.deployToLive, Api.createDraftVersion, ne_eq, decide_not]
    rw [if_neg hlen0, if_neg hflen0]
    simp [createVersionR, pushChangesR, publishVersionR, List.lookup, hcApi, hpush, hpub,
          List.filter_filter]
  · simp only [Srv.deployToLive, ne_eq, decide_not]
    rw [if_neg hlen0, if_neg hflen0]
    simp [createVersionR, pushChangesR, publishVersionR, List.lookup, hcSrv, hpush, hpub,
          List.filter_filter]

/-- Counterexample to C9 as stated: the server.ts deployToLive ignores
the caller-supplied name.  Deploying with the explicit name
"my-release" creates exactly one draft, and its name is the
auto-generated label, not the caller-supplied one. -/
theorem deployToLive_ignores_caller_name :
    ((Srv.deployToLive okEnv [{ path := "a", content := "x", status := ChangeStatus.added }]
        (some "my-release") initState).2.trace.filterMap
      (fun op => match op with
        | RemoteOp.create n => some n
        | _ => none)) = ["MCP deploy " ++ okEnv.nowIso] ∧
    ("MCP deploy " ++ okEnv.nowIso) ≠ "my-release" :=
  ⟨by decide, by decide⟩

/-- Witness for C9: a concrete successful api.ts deploy with a
caller-supplied name performs exactly one create (named from the
caller), one whole-batch push and one publish. -/
theorem deployToLive_success_path_witness :
    (Api.deployToLive okEnv [{ path := "a", content := "x", status := ChangeStatus.added }]
        (some "rel") initState).2.trace =
      [RemoteOp.create "rel",
       RemoteOp.push (freshUuid 0) [{ path := "a", content := "x", status := ChangeStatus.added }],
       RemoteOp.publish (freshUuid 0) none] := by
  have h := (deployToLive_success_path okEnv
      [{ path := "a", content := "x", status := ChangeStatus.added }]
      (some "rel") initState (by decide) rfl rfl rfl rfl).1
  rw [h]
  rfl

-- ============================================================================
-- C8: all-or-nothing validation gating of the push tool
-- ============================================================================

/-- C8: validateAllPrompts returns valid = false exactly when at least
one prompt of the batch has at least one error-type issue, and in that
case handlePushPrompts returns the validation failure report without
touching the remote state: zero Version Client calls are made, so
nothing is pushed for any document of the batch, including documents
that passed validation individually. -/
theorem validateAllPrompts_gating (env : Env) (args : PushPromptsArgs) (s : RemoteState) :
    ((validateAllPrompts env.scan (resolvedPrompts env args)).valid = false ↔
      ∃ p ∈ resolvedPrompts env args,
        (validatePromptLContent env.scan p.content p.name).filter
          (fun i => i.type = "error") ≠ []) ∧
    ((validateAllPrompts env.scan (resolvedPrompts env args)).valid = false →
      handlePushPrompts env args s =
        (Except.ok (formatValidationErrors
          (validateAllPrompts env.scan (resolvedPrompts env args)).errors), s)) := by
  have hiff : (validateAllPrompts env.scan (resolvedPrompts env args)).valid = false ↔
      ∃ p ∈ resolvedPrompts env args,
        (validatePromptLContent env.scan p.content p.name).filter
          (fun i => i.type = "error") ≠ [] := by
    rw [validateAllPrompts]
    simp only [decide_eq_false_iff_not, List.length_eq_zero]
    constructor
    · intro hne
      rcases List.exists_cons_of_ne_nil hne with ⟨x, xs, hx⟩
      have hmem : x ∈ x :: xs := List.mem_cons_self _ _
      rw [← hx] at hmem
      rcases List.mem_filterMap.mp hmem with ⟨p, hp, hf⟩
      refine ⟨p, hp, ?_⟩
      intro hnil
      rw [hnil] at hf
      simp at hf
    · rintro ⟨p, hp, hne⟩ hnil
      rw [List.filterMap_eq_nil_iff] at hnil
      have := hnil p hp
      rw [if_pos] at this
      · exact absurd this (by simp)
      · have : (validatePromptLContent env.scan p.content p.name).filter
            (fun i => i.type = "error") ≠ [] := hne
        have hpos := List.length_pos.mpr this
        omega
  refine ⟨hiff, ?_⟩
  intro hinvalid
  have hne : resolvedPrompts env args ≠ [] := by
    intro hnil
    rcases hiff.mp hinvalid with ⟨p, hp, _⟩
    rw [hnil] at hp
    exact absurd hp (List.not_mem_nil p)
  have hlen : ¬ ((resolvedPrompts env args).length = 0) := by
    intro hzero
    exact hne (List.length_eq_zero.mp hzero)
  simp only [handlePushPrompts]
  rw [if_neg hlen, if_pos hinvalid]

/-- Arguments for the C8 witness: three prompts of which exactly one
("p2") has a static error under `scanBadEnv`. -/
def c8args : PushPromptsArgs :=
  { prompts := some
      [ { name := "p1", content := "ok1" },
        { name := "p2", content := "bad" },
        { name := "p3", content := "ok3" } ] }

/-- Witness for C8: with one bad prompt out of three the batch is
invalid and the handler answers with the validation report without a
single remote call. -/
theorem validateAllPrompts_gating_witness :
    (validateAllPrompts scanBadEnv.scan (resolvedPrompts scanBadEnv c8args)).valid = false ∧
    handlePushPrompts scanBadEnv c8args initState =
      (Except.ok (formatValidationErrors
        (validateAllPrompts scanBadEnv.scan (resolvedPrompts scanBadEnv c8args)).errors),
       initState) :=
  ⟨by decide, (validateAllPrompts_gating scanBadEnv c8args initState).2 (by decide)⟩

-- ============================================================================
-- C5: what the localization probes publish
-- ============================================================================

/-- freshly assigned draft uuids are never the literal live ref. -/
theorem freshUuid_ne_live (k : Nat) : freshUuid k ≠ "live" := by
  intro h
  have hd : (freshUuid k).data = "live".data := congrArg String.data h
  rw [freshUuid, String.data_append] at hd
  simp at hd

/-- Invariant of the remote operations performed by localization probes
while the creation counter moves from c0 to c1: every publish is
untitled and targets a draft freshly created in that window (never the
literal "live" ref), and every created draft carries a probe name
(val-… for a single-document probe, batch-val-… for a batch probe). -/
def ProbeOps (env : Env) (c0 c1 : Nat) (ops : List RemoteOp) : Prop :=
  (∀ u t, RemoteOp.publish u t ∈ ops →
    t = none ∧ u ≠ "live" ∧ ∃ k, c0 ≤ k ∧ k < c1 ∧ u = freshUuid k) ∧
  (∀ n, RemoteOp.create n ∈ ops →
    ((∃ c, n = valDraftName env c) ∨ n = batchValDraftName env))

theorem ProbeOps.nil (env : Env) (c : Nat) : ProbeOps env c c [] :=
  ⟨fun u t h => absurd h (List.not_mem_nil _), fun n h => absurd h (List.not_mem_nil _)⟩

theorem ProbeOps.append {env : Env} {c0 c1 c2 : Nat} {ops1 ops2 : List RemoteOp}
    (h1 : ProbeOps env c0 c1 ops1) (h2 : ProbeOps env c1 c2 ops2)
    (hc01 : c0 ≤ c1) (hc12 : c1 ≤ c2) : ProbeOps env c0 c2 (ops1 ++ ops2) := by
  constructor
  · intro u t hmem
    rcases List.mem_append.mp hmem with hm | hm
    · obtain ⟨ht, hu, k, hk0, hk1, hk⟩ := h1.1 u t hm
      exact ⟨ht, hu, k, hk0, Nat.lt_of_lt_of_le hk1 hc12, hk⟩
    · obtain ⟨ht, hu, k, hk0, hk1, hk⟩ := h2.1 u t hm
      exact ⟨ht, hu, k, Nat.le_trans hc01 hk0, hk1, hk⟩
  · intro n hmem
    rcases List.mem_append.mp hmem with hm | hm
    · exact h1.2 n hm
    · exact h2.2 n hm

/-- A single-document probe only creates a val-named draft and only
publishes that fresh draft, untitled. -/
theorem testSingle_trace (env : Env) (c : DocumentChange) (s : RemoteState)
    (r : Except ApiError (Option FailedDocument)) (s1 : RemoteState)
    (h : testSingleDocument env c s = (r, s1)) :
    s.ctr ≤ s1.ctr ∧ ∃ ops, s1.trace = s.trace ++ ops ∧ ProbeOps env s.ctr s1.ctr ops := by
  cases hc : env.createErr (valDraftName env c) with
  | some e =>
      rw [testSingle_createErr env c s e hc] at h
      obtain ⟨_, rfl⟩ := Prod.mk.injEq .. ▸ (Prod.mk.inj h.symm)
      refine ⟨Nat.le_refl _, [RemoteOp.create (valDraftName env c)], rfl, ?_, ?_⟩
      · intro u t hmem
        simp at hmem
      · intro n hmem
        simp at hmem
        exact Or.inl ⟨c, hmem⟩
  | none =>
      cases hp : env.pushErr [c] with
      | some e =>
          rw [testSingle_pushErr env c s e hc hp] at h
          obtain ⟨_, rfl⟩ := Prod.mk.inj h.symm
          refine ⟨Nat.le_succ _,
            [RemoteOp.create (valDraftName env c), RemoteOp.push (freshUuid s.ctr) [c]],
            rfl, ?_, ?_⟩
          · intro u t hmem
            simp at hmem
          · intro n hmem
            simp at hmem
            exact Or.inl ⟨c, hmem⟩
      | none =>
          cases hq : env.publishErr [c] with
          | some e =>
              rw [testSingle_publishErr env c s e hc hp hq] at h
              obtain ⟨_, rfl⟩ := Prod.mk.inj h.symm
              refine ⟨Nat.le_succ _,
                [RemoteOp.create (valDraftName env c), RemoteOp.push (freshUuid s.ctr) [c],
                 RemoteOp.publish (freshUuid s.ctr) none],
                rfl, ?_, ?_⟩
              · intro u t hmem
                simp only [List.mem_cons, List.not_mem_nil, or_false] at hmem
                rcases hmem with hmem | hmem | hmem
                · exact absurd hmem (by simp)
                · exact absurd hmem (by simp)
                · obtain ⟨hu, ht⟩ := RemoteOp.publish.inj hmem
                  subst hu
                  subst ht
                  exact ⟨rfl, freshUuid_ne_live s.ctr,
                    s.ctr, Nat.le_refl _, Nat.lt_succ_self _, rfl⟩
              · intro n hmem
                simp at hmem
                exact Or.inl ⟨c, hmem⟩
          | none =>
              rw [testSingle_ok env c s hc hp hq] at h
              obtain ⟨_, rfl⟩ := Prod.mk.inj h.symm
              refine ⟨Nat.le_succ _,
                [RemoteOp.create (valDraftName env c), RemoteOp.push (freshUuid s.ctr) [c],
                 RemoteOp.publish (freshUuid s.ctr) none],
                rfl, ?_, ?_⟩
              · intro u t hmem
                simp only [List.mem_cons, List.not_mem_nil, or_false] at hmem
                rcases hmem with hmem | hmem | hmem
                · exact absurd hmem (by simp)
                · exact absurd hmem (by simp)
                · obtain ⟨hu, ht⟩ := RemoteOp.publish.inj hmem
                  subst hu
                  subst ht
                  exact ⟨rfl, freshUuid_ne_live s.ctr,
                    s.ctr, Nat.le_refl _, Nat.lt_succ_self _, rfl⟩
              · intro n hmem
                simp at hmem
                exact Or.inl ⟨c, hmem⟩

/-- A batch probe only creates a batch-val-named draft and only
publishes that fresh draft, untitled. -/
theorem testBatch_trace (env : Env) (b : List DocumentChange) (s : RemoteState)
    (r : Except ApiError Bool) (s1 : RemoteState)
    (h : testBatch env b s = (r, s1)) :
    s.ctr ≤ s1.ctr ∧ ∃ ops, s1.trace = s.trace ++ ops ∧ ProbeOps env s.ctr s1.ctr ops := by
  cases hc : env.createErr (batchValDraftName env) with
  | some e =>
      rw [testBatch_createErr env b s e hc] at h
      obtain ⟨_, rfl⟩ := Prod.mk.inj h.symm
      refine ⟨Nat.le_refl _, [RemoteOp.create (batchValDraftName env)], rfl, ?_, ?_⟩
      · intro u t hmem
        simp at hmem
      · intro n hmem
        simp at hmem
        exact Or.inr hmem
  | none =>
      cases hp : env.pushErr b with
      | some e =>
          rw [testBatch_pushErr env b s e hc hp] at h
          obtain ⟨_, rfl⟩ := Prod.mk.inj h.symm
          refine ⟨Nat.le_succ _,
            [RemoteOp.create (batchValDraftName env), RemoteOp.push (freshUuid s.ctr) b],
            rfl, ?_, ?_⟩
          · intro u t hmem
            simp at hmem
          · intro n hmem
            simp at hmem
            exact Or.inr hmem
      | none =>
          have key : ∀ s1' r', (r', s1') =
              (r, s1) →
              s1' = { s with ctr := s.ctr + 1,
                             drafts := (freshUuid s.ctr, b) :: s.drafts,
                             trace := s.trace ++ [RemoteOp.create (batchValDraftName env),
                                                  RemoteOp.push (freshUuid s.ctr) b,
                                                  RemoteOp.publish (freshUuid s.ctr) none] } →
              s.ctr ≤ s1.ctr ∧ ∃ ops, s1.trace = s.trace ++ ops ∧
                ProbeOps env s.ctr s1.ctr ops := by
            intro s1' r' heq hs1
            obtain ⟨_, rfl⟩ := Prod.mk.inj heq
            rw [hs1]
            refine ⟨Nat.le_succ _,
              [RemoteOp.create (batchValDraftName env), RemoteOp.push (freshUuid s.ctr) b,
               RemoteOp.publish (freshUuid s.ctr) none],
              rfl, ?_, ?_⟩
            · intro u t hmem
              simp only [List.mem_cons, List.not_mem_nil, or_false] at hmem
              rcases hmem with hmem | hmem | hmem
              · exact absurd hmem (by simp)
              · exact absurd hmem (by simp)
              · obtain ⟨hu, ht⟩ := RemoteOp.publish.inj hmem
                subst hu
                subst ht
                exact ⟨rfl, freshUuid_ne_live s.ctr,
                  s.ctr, Nat.le_refl _, Nat.lt_succ_self _, rfl⟩
            · intro n hmem
              simp at hmem
              exact Or.inr hmem
          cases hq : env.publishErr b with
          | some e =>
              rw [testBatch_publishErr env b s e hc hp hq] at h
              exact key _ _ h rfl
          | none =>
              rw [testBatch_ok env b s hc hp hq] at h
              exact key _ _ h rfl

/-- The per-document pass performs probe operations only. -/
theorem testIndividually_trace (env : Env) :
    ∀ (l : List DocumentChange) (s : RemoteState)
      (r : Except ApiError (List FailedDocument)) (s1 : RemoteState),
      testDocumentsIndividually env l s = (r, s1) →
      s.ctr ≤ s1.ctr ∧ ∃ ops, s1.trace = s.trace ++ ops ∧ ProbeOps env s.ctr s1.ctr ops := by
  intro l
  induction l with
  | nil =>
      intro s r s1 h
      obtain ⟨_, rfl⟩ := Prod.mk.inj h.symm
      exact ⟨Nat.le_refl _, [], by simp, ProbeOps.nil env _⟩
  | cons c rest ih =>
      intro s r s1 h
      simp only [testDocumentsIndividually] at h
      split at h
      · rename_i e s2 heq
        obtain ⟨_, rfl⟩ := Prod.mk.inj h.symm
        exact testSingle_trace env c s _ _ heq
      · rename_i result s2 heq
        obtain ⟨hc1, ops1, htr1, hp1⟩ := testSingle_trace env c s _ _ heq
        split at h
        · rename_i e s3 heq2
          obtain ⟨hc2, ops2, htr2, hp2⟩ := ih s2 _ _ heq2
          obtain ⟨_, rfl⟩ := Prod.mk.inj h.symm
          exact ⟨Nat.le_trans hc1 hc2, ops1 ++ ops2,
            by rw [htr2, htr1, List.append_assoc],
            ProbeOps.append hp1 hp2 hc1 hc2⟩
        · rename_i fs s3 heq2
          obtain ⟨hc2, ops2, htr2, hp2⟩ := ih s2 _ _ heq2
          obtain ⟨_, rfl⟩ := Prod.mk.inj h.symm
          exact ⟨Nat.le_trans hc1 hc2, ops1 ++ ops2,
            by rw [htr2, htr1, List.append_assoc],
            ProbeOps.append hp1 hp2 hc1 hc2⟩

/-- The binary search performs probe operations only. -/
theorem binarySearch_trace (env : Env) :
    ∀ (fuel : Nat) (changes : List DocumentChange) (s : RemoteState)
      (r : Except ApiError (List FailedDocument)) (s1 : RemoteState),
      binarySearchFailures env fuel changes s = (r, s1) →
      s.ctr ≤ s1.ctr ∧ ∃ ops, s1.trace = s.trace ++ ops ∧ ProbeOps env s.ctr s1.ctr ops := by
  intro fuel
  induction fuel with
  | zero =>
      intro changes s r s1 h
      simp only [binarySearchFailures] at h
      obtain ⟨_, rfl⟩ := Prod.mk.inj h.symm
      exact ⟨Nat.le_refl _, [], by simp, ProbeOps.nil env _⟩
  | succ fuel ih =>
      intro changes s r s1 h
      rcases changes with _ | ⟨c, _ | ⟨c2, rest⟩⟩
      · simp only [binarySearchFailures] at h
        split at h
        · rename_i e s2 heq
          obtain ⟨_, rfl⟩ := Prod.mk.inj h.symm
          exact testBatch_trace env _ s _ _ heq
        · rename_i s2 heq
          obtain ⟨_, rfl⟩ := Prod.mk.inj h.symm
          exact testBatch_trace env _ s _ _ heq
        · rename_i s2 heq
          obtain ⟨hb, opsb, htrb, hpb⟩ := testBatch_trace env _ s _ _ heq
          split at h
          · rename_i e s3 heq2
            obtain ⟨hl, opsl, htrl, hpl⟩ := ih _ s2 _ _ heq2
            obtain ⟨_, rfl⟩ := Prod.mk.inj h.symm
            exact ⟨Nat.le_trans hb hl, opsb ++ opsl,
              by rw [htrl, htrb, List.append_assoc],
              ProbeOps.append hpb hpl hb hl⟩
          · rename_i fsL s3 heq2
            obtain ⟨hl, opsl, htrl, hpl⟩ := ih _ s2 _ _ heq2
            split at h
            · rename_i e s4 heq3
              obtain ⟨hr2, opsr, htrr, hpr⟩ := ih _ s3 _ _ heq3
              obtain ⟨_, rfl⟩ := Prod.mk.inj h.symm
              exact ⟨Nat.le_trans hb (Nat.le_trans hl hr2), opsb ++ (opsl ++ opsr),
                by rw [htrr, htrl, htrb, List.append_assoc, List.append_assoc],
                ProbeOps.append hpb (ProbeOps.append hpl hpr hl hr2) hb
                  (Nat.le_trans hl hr2)⟩
            · rename_i fsR s4 heq3
              obtain ⟨hr2, opsr, htrr, hpr⟩ := ih _ s3 _ _ heq3
              obtain ⟨_, rfl⟩ := Prod.mk.inj h.symm
              exact ⟨Nat.le_trans hb (Nat.le_trans hl hr2), opsb ++ (opsl ++ opsr),
                by rw [htrr, htrl, htrb, List.append_assoc, List.append_assoc],
                ProbeOps.append hpb (ProbeOps.append hpl hpr hl hr2) hb
                  (Nat.le_trans hl hr2)⟩
      · simp only [binarySearchFailures] at h
        split at h
        · rename_i e s2 heq
          obtain ⟨_, rfl⟩ := Prod.mk.inj h.symm
          exact testSingle_trace env c s _ _ heq
        · rename_i result s2 heq
          obtain ⟨_, rfl⟩ := Prod.mk.inj h.symm
          exact testSingle_trace env c s _ _ heq
      · simp only [binarySearchFailures] at h
        split at h
        · rename_i e s2 heq
          obtain ⟨_, rfl⟩ := Prod.mk.inj h.symm
          exact testBatch_trace env _ s _ _ heq
        · rename_i s2 heq
          obtain ⟨_, rfl⟩ := Prod.mk.inj h.symm
          exact testBatch_trace env _ s _ _ heq
        · rename_i s2 heq
          obtain ⟨hb, opsb, htrb, hpb⟩ := testBatch_trace env _ s _ _ heq
          split at h
          · rename_i e s3 heq2
            obtain ⟨hl, opsl, htrl, hpl⟩ := ih _ s2 _ _ heq2
            obtain ⟨_, rfl⟩ := Prod.mk.inj h.symm
            exact ⟨Nat.le_trans hb hl, opsb ++ opsl,
              by rw [htrl, htrb, List.append_assoc],
              ProbeOps.append hpb hpl hb hl⟩
          · rename_i fsL s3 heq2
            obtain ⟨hl, opsl, htrl, hpl⟩ := ih _ s2 _ _ heq2
            split at h
            · rename_i e s4 heq3
              obtain ⟨hr2, opsr, htrr, hpr⟩ := ih _ s3 _ _ heq3
              obtain ⟨_, rfl⟩ := Prod.mk.inj h.symm
              exact ⟨Nat.le_trans hb (Nat.le_trans hl hr2), opsb ++ (opsl ++ opsr),
                by rw [htrr, htrl, htrb, List.append_assoc, List.append_assoc],
                ProbeOps.append hpb (ProbeOps.append hpl hpr hl hr2) hb
                  (Nat.le_trans hl hr2)⟩
            · rename_i fsR s4 heq3
              obtain ⟨hr2, opsr, htrr, hpr⟩ := ih _ s3 _ _ heq3
              obtain ⟨_, rfl⟩ := Prod.mk.inj h.symm
              exact ⟨Nat.le_trans hb (Nat.le_trans hl hr2), opsb ++ (opsl ++ opsr),
                by rw [htrr, htrl, htrb, List.append_assoc, List.append_assoc],
                ProbeOps.append hpb (ProbeOps.append hpl hpr hl hr2) hb
                  (Nat.le_trans hl hr2)⟩

/-- C5 (amended): every remote operation performed by
identifyFailingDocuments belongs to a disposable probe: created drafts
are distinctly tagged with the probe names (val-… and batch-val-…),
and every
publish it issues is untitled and targets only a draft freshly created
during this very localization run — in particular never the literal
"live" ref and never a pre-existing version.  (Contrary to the claim
as stated, a probe does attempt publish on its own throwaway draft,
and when that publish succeeds the remote does promote the throwaway
draft to live; see the counterexample.) -/
theorem identifyFailingDocuments_probe_trace (env : Env) (changes : List DocumentChange)
    (s : RemoteState) (r : Except ApiError (List FailedDocument)) (s1 : RemoteState)
    (h : identifyFailingDocuments env changes s = (r, s1)) :
    ∃ ops, s1.trace = s.trace ++ ops ∧
      (∀ u t, RemoteOp.publish u t ∈ ops →
        t = none ∧ u ≠ "live" ∧ ∃ k, s.ctr ≤ k ∧ k < s1.ctr ∧ u = freshUuid k) ∧
      (∀ n, RemoteOp.create n ∈ ops →
        ((∃ c, n = valDraftName env c) ∨ n = batchValDraftName env)) := by
  simp only [identifyFailingDocuments] at h
  split at h
  · obtain ⟨_, rfl⟩ := Prod.mk.inj h.symm
    refine ⟨[], by simp, ?_, ?_⟩
    · intro u t hmem
      exact absurd hmem (List.not_mem_nil _)
    · intro n hmem
      exact absurd hmem (List.not_mem_nil _)
  · split at h
    · obtain ⟨_, rfl⟩ := Prod.mk.inj h.symm
      refine ⟨[], by simp, ?_, ?_⟩
      · intro u t hmem
        exact absurd hmem (List.not_mem_nil _)
      · intro n hmem
        exact absurd hmem (List.not_mem_nil _)
    · split at h
      · obtain ⟨_, ops, htr, hp⟩ := testIndividually_trace env _ s _ _ h
        exact ⟨ops, htr, hp.1, hp.2⟩
      · obtain ⟨_, ops, htr, hp⟩ := binarySearch_trace env _ _ s _ _ h
        exact ⟨ops, htr, hp.1, hp.2⟩

/-- The single clean change used by the C5 counterexample and
witness. -/
def c5change : DocumentChange :=
  { path := "a", content := "x", status := ChangeStatus.added }

/-- Final remote state of the C5 run: the probe created, pushed to and
published one throwaway draft. -/
def c5endState : RemoteState :=
  { ctr := 1
    drafts := [(freshUuid 0, [c5change])]
    trace := [RemoteOp.create "val-0-a",
              RemoteOp.push (freshUuid 0) [c5change],
              RemoteOp.publish (freshUuid 0) none]
    cachedPromptNames := [] }

/-- Counterexample to C5 as stated: on a clean single-document batch
the localization probe performs a publish of its own throwaway draft
(the trace ends with `publish uuid-0`), and that publish succeeds
(`publishErr` is none for the probed batch) — so the probe draft is
promoted to the real live pointer, contradicting "no probe ever
publishes its throwaway draft to the real live pointer". -/
theorem identifyFailingDocuments_publishes_probe_draft :
    identifyFailingDocuments okEnv [c5change] initState = (Except.ok [], c5endState) ∧
    RemoteOp.publish (freshUuid 0) none ∈ c5endState.trace ∧
    okEnv.publishErr [c5change] = none :=
  ⟨by rfl, by decide, rfl⟩

/-- Witness for the amended C5 on the concrete clean probe run. -/
theorem identifyFailingDocuments_probe_trace_witness :
    ∃ ops, c5endState.trace = initState.trace ++ ops ∧
      (∀ u t, RemoteOp.publish u t ∈ ops →
        t = none ∧ u ≠ "live" ∧ ∃ k, initState.ctr ≤ k ∧ k < c5endState.ctr ∧ u = freshUuid k) ∧
      (∀ n, RemoteOp.create n ∈ ops →
        ((∃ c, n = valDraftName okEnv c) ∨ n = batchValDraftName okEnv)) :=
  identifyFailingDocuments_probe_trace okEnv [c5change] initState
    (Except.ok []) c5endState (by rfl)
